import Mathlib

/-!
Verification development for the mini Python-subset compiler pipeline
(lexer → parser + symbol table → three-address-code generator).

The definitions below are a shallow embedding of the Python sources
`tokens.py`, `lexer.py`, `symtable.py`, `astnodes.py`, `parser.py` and
`codegen3ac.py`.  Mutable cursors become explicit state records, Python
exceptions become `Except` error values, and the closed string enumeration
of token kinds becomes an inductive type whose constructor names are the
`TT_*` constants of `tokens.py`.
-/

namespace MiniPy

/-- The backslash character, written by code so that source listings stay
readable. -/
def bslashC : Char := Char.ofNat 92

/-- The single-quote character. -/
def squoteC : Char := Char.ofNat 39

/-- The double-quote character. -/
def dquoteC : Char := Char.ofNat 34

/-- The opening-brace character. -/
def lbraceC : Char := Char.ofNat 123

/-- The closing-brace character. -/
def rbraceC : Char := Char.ofNat 125

/-- Token kinds: the closed enumeration of `TT_*` constants from `tokens.py`
(the constants are strings in the source; an enum models the closed set). -/
inductive TokType where
  | NAME | NUMBER | STRING
  | NEWLINE | INDENT | DEDENT | TYPE_COMMENT
  | ENDMARKER
  | PLUS | MINUS | STAR | SLASH | DOUBLE_SLASH
  | PERCENT | AT | PIPE | AMPERSAND | CARET | TILDE
  | LSHIFT | RSHIFT | DOUBLE_STAR
  | EQUAL | EQEQUAL | NOTEQUAL | LESSEQUAL | GREATEREQUAL
  | LESS | GREATER
  | LPAREN | RPAREN | LBRACKET | RBRACKET
  | LBRACE | RBRACE
  | COMMA | COLON | SEMI | DOT | ARROW
  | PLUSEQUAL | MINEQUAL | STAREQUAL | SLASHEQUAL
  | PERCENTEQUAL | ATEQUAL | AMPEREQUAL | PIPEEQUAL
  | CARETEQUAL | LSHIFTEQUAL | RSHIFTEQUAL
  | DOUBLE_STAREQUAL | DOUBLE_SLASHEQUAL
  deriving DecidableEq, Repr

/-- Token payload: `None`, a string lexeme, or a numeric literal.  The
source stores `float(num_str)` for numbers; we keep the scanned lexeme
`num_str` itself (the conversion is a value-level detail none of the
verified properties inspect, and it succeeds on every lexeme whose shape
`floatLitOk` below accepts). -/
inductive TokValue where
  | none
  | str (s : String)
  | num (lexeme : String)
  deriving DecidableEq, Repr

/-- The `Token` dataclass of `tokens.py`: kind, payload and 1-based source
position. -/
structure Token where
  type : TokType
  value : TokValue
  line : Nat
  column : Nat
  deriving DecidableEq, Repr

/-- The distinct failure messages `lexer.py` can raise (`LexerError`s plus
the index error a dedent to an empty stack would raise, plus fuel
exhaustion of the embedding's bounded loop, which no run reaches). -/
inductive LexErrKind where
  | unexpectedChar (c : Char)
  | invalidDedent
  | invalidNumberAfterDot
  | invalidExponent
  | invalidNumber
  | unterminatedString
  | eofInEscape
  | newlineInString
  | indexError
  | outOfFuel
  deriving DecidableEq, Repr

/-- A lexical fault carrying the offending line and column, as
`LexerError` does. -/
structure LexError where
  kind : LexErrKind
  line : Nat
  column : Nat
  deriving DecidableEq, Repr

/-- Reading cursor of the lexer: the remaining text plus the current
1-based line/column (the source keeps an absolute `pos` into the full
text; keeping the unread suffix is the same data). -/
structure Cursor where
  rest : List Char
  line : Nat
  col : Nat
  deriving DecidableEq, Repr

/-- One step of `Lexer._advance`: consume one character, updating
line/column; at end of input nothing changes. -/
def Cursor.adv : Cursor → Cursor
  | ⟨[], l, c⟩ => ⟨[], l, c⟩
  | ⟨ch :: rest, l, c⟩ => if ch = '\n' then ⟨rest, l + 1, 1⟩ else ⟨rest, l, c + 1⟩

/-- The position change of consuming one character (used by the string
scanner, which tracks line/column alongside a plain character list). -/
def advPos (ch : Char) (l c : Nat) : Nat × Nat :=
  if ch = '\n' then (l + 1, 1) else (l, c + 1)

/-- `Lexer._advance(n)`. -/
def Cursor.advN (cur : Cursor) : Nat → Cursor
  | 0 => cur
  | n + 1 => cur.adv.advN n

/-- `Lexer._peek(k)`. -/
def Cursor.peek (cur : Cursor) (k : Nat) : Option Char :=
  cur.rest.get? k

/-- Full lexer state: cursor, indentation stack (head is the Python list's
last element, i.e. the top) and the logical line-start flag. -/
structure LexState where
  cur : Cursor
  indent_stack : List Nat
  at_line_start : Bool
  deriving DecidableEq, Repr

/-- The indentation-counting loop at the top of `Lexer._handle_line_start`:
a space adds 1, a tab adds 4. -/
def scanIndent (acc : Nat) : List Char → Nat → Nat → Nat × Cursor
  | c :: rest, l, co =>
    if c = ' ' then scanIndent (acc + 1) rest l (co + 1)
    else if c = '\t' then scanIndent (acc + 4) rest l (co + 1)
    else (acc, ⟨c :: rest, l, co⟩)
  | [], l, co => (acc, ⟨[], l, co⟩)

/-- The dedent loop of `Lexer._handle_line_start`: pop while the stack is
nonempty and the measured indent is below the top; returns the remaining
stack and how many levels were popped (one DEDENT each). -/
def popDedents (indent : Nat) : List Nat → List Nat × Nat
  | [] => ([], 0)
  | top :: rest =>
    if indent < top then
      let (s, k) := popDedents indent rest
      (s, k + 1)
    else (top :: rest, 0)

/-- `Lexer._handle_line_start`: count leading indentation; a blank or
comment-only line changes nothing; otherwise compare against the stack
top, pushing one INDENT, popping DEDENTs, or doing nothing. -/
def handleLineStart (st : LexState) : Except LexError (LexState × List Token) :=
  let sl := st.cur.line
  let sc := st.cur.col
  let (indent, cur) := scanIndent 0 st.cur.rest st.cur.line st.cur.col
  match cur.rest.head? with
  | Option.none => .ok ({ st with cur := cur, at_line_start := false }, [])
  | some c =>
    if c = '\n' ∨ c = '#' then
      .ok ({ st with cur := cur, at_line_start := false }, [])
    else
      match st.indent_stack with
      | [] => .error ⟨.indexError, sl, sc⟩
      | prev :: _ =>
        if indent > prev then
          .ok ({ st with cur := cur, at_line_start := false, indent_stack := indent :: st.indent_stack },
               [⟨.INDENT, .none, sl, sc⟩])
        else if indent < prev then
          let (stk, k) := popDedents indent st.indent_stack
          match stk with
          | [] => .error ⟨.indexError, sl, sc⟩
          | top :: _ =>
            if indent ≠ top then .error ⟨.invalidDedent, sl, sc⟩
            else
              .ok ({ st with cur := cur, at_line_start := false, indent_stack := stk },
                   List.replicate k ⟨.DEDENT, .none, sl, sc⟩)
        else
          .ok ({ st with cur := cur, at_line_start := false }, [])

/-- Characters Python's `str.lstrip()` removes (ASCII whitespace). -/
def pyIsSpace (c : Char) : Bool :=
  c = ' ' ∨ c = '\t' ∨ c = '\n' ∨ c = Char.ofNat 13 ∨ c = Char.ofNat 11 ∨ c = Char.ofNat 12

/-- Collect the raw comment text up to (not including) the newline. -/
def scanCommentChars : List Char → Nat → Nat → List Char × Cursor
  | c :: rest, l, co =>
    if c = '\n' then ([], ⟨c :: rest, l, co⟩)
    else
      let (s, cur) := scanCommentChars rest l (co + 1)
      (c :: s, cur)
  | [], l, co => ([], ⟨[], l, co⟩)

/-- The `comment_text.lstrip('#').lstrip()` normalization of
`Lexer._handle_comment`. -/
def stripComment (txt : List Char) : List Char :=
  (txt.dropWhile (fun c => c = '#')).dropWhile pyIsSpace

/-- `Lexer._handle_comment`: read the comment, strip leading hashes and
whitespace; a `type:` comment becomes a TYPE_COMMENT token, everything
else is discarded. -/
def handleComment (cur0 : Cursor) : List Token × Cursor :=
  match scanCommentChars cur0.rest cur0.line cur0.col with
  | (txt, cur) =>
    if List.isPrefixOf (String.toList ("type:")) (stripComment txt) then
      ([⟨.TYPE_COMMENT, .str (String.mk (stripComment txt)), cur0.line, cur0.col⟩], cur)
    else ([], cur)

/-- Digit-collecting loop shared by the integer, fraction and exponent
parts of `Lexer._number`. -/
def scanDigits : List Char → Nat → Nat → List Char × Cursor
  | c :: rest, l, co =>
    if c.isDigit then
      let (s, cur) := scanDigits rest l (co + 1)
      (c :: s, cur)
    else ([], ⟨c :: rest, l, co⟩)
  | [], l, co => ([], ⟨[], l, co⟩)

/-- Acceptance test of CPython's `float()` on the character shapes
`Lexer._number` can scan (mantissa digits with at most one dot, then an
optional signed all-digit exponent).  Models the `float(num_str)`
conversion whose failure raises the generic invalid-number fault. -/
def floatLitOk (s : List Char) : Bool :=
  let (d1, r1) := s.span Char.isDigit
  let (dotSeen, d2, r2) :=
    match r1 with
    | c :: rest =>
      if c = '.' then
        let (a, b) := rest.span Char.isDigit
        (true, a, b)
      else (false, ([] : List Char), r1)
    | [] => (false, ([] : List Char), r1)
  let mantOk := decide (d1 ≠ [] ∨ (dotSeen ∧ d2 ≠ []))
  match r2 with
  | [] => mantOk
  | c :: rest =>
    if c = 'e' ∨ c = 'E' then
      let rest2 :=
        match rest with
        | s2 :: tl => if s2 = '+' ∨ s2 = '-' then tl else rest
        | [] => rest
      let (d3, r3) := rest2.span Char.isDigit
      mantOk && decide (d3 ≠ []) && decide (r3 = [])
    else false

/-- The scanning body of `Lexer._number`: build `num_str` over
`[.]digits [. digits] [(e|E)[+|-]digits]`, failing on a leading dot with
no following digit, on a malformed exponent, or when the scanned lexeme
is not a valid float literal. -/
def scanNumberStr (cur0 : Cursor) : Except LexError (List Char × Cursor) :=
  let sl := cur0.line
  let sc := cur0.col
  let step1 : Except LexError (List Char × Cursor) :=
    match cur0.rest with
    | c :: _ =>
      if c = '.' then
        let cur1 := cur0.adv
        match cur1.rest.head? with
        | some d => if d.isDigit then .ok ([c], cur1) else .error ⟨.invalidNumberAfterDot, sl, sc⟩
        | Option.none => .error ⟨.invalidNumberAfterDot, sl, sc⟩
      else .ok ([], cur0)
    | [] => .ok ([], cur0)
  match step1 with
  | .error e => .error e
  | .ok (pre, cur1) =>
    let (ds1, cur2) := scanDigits cur1.rest cur1.line cur1.col
    let numA := pre ++ ds1
    let (numB, cur3) :=
      match cur2.rest with
      | c :: _ =>
        if c = '.' then
          let curX := cur2.adv
          let (ds2, curY) := scanDigits curX.rest curX.line curX.col
          (numA ++ [c] ++ ds2, curY)
        else (numA, cur2)
      | [] => (numA, cur2)
    let expPart : Except LexError (List Char × Cursor) :=
      match cur3.rest with
      | c :: _ =>
        if c = 'e' ∨ c = 'E' then
          let cur4 := cur3.adv
          let (sign, cur5) :=
            match cur4.rest with
            | s2 :: _ => if s2 = '+' ∨ s2 = '-' then ([s2], cur4.adv) else (([] : List Char), cur4)
            | [] => (([] : List Char), cur4)
          match cur5.rest.head? with
          | some d =>
            if d.isDigit then
              let (ds3, cur6) := scanDigits cur5.rest cur5.line cur5.col
              .ok ([c] ++ sign ++ ds3, cur6)
            else .error ⟨.invalidExponent, cur5.line, cur5.col⟩
          | Option.none => .error ⟨.invalidExponent, cur5.line, cur5.col⟩
        else .ok ([], cur3)
      | [] => .ok ([], cur3)
    match expPart with
    | .error e => .error e
    | .ok (expChars, curF) =>
      let numStr := numB ++ expChars
      if floatLitOk numStr then .ok (numStr, curF)
      else .error ⟨.invalidNumber, sl, sc⟩

/-- `Lexer._number`: the NUMBER token carrying the scanned lexeme at the
scan's start position. -/
def scanNumber (cur0 : Cursor) : Except LexError (Token × Cursor) :=
  match scanNumberStr cur0 with
  | .ok (numStr, curF) => .ok (⟨.NUMBER, .num (String.mk numStr), cur0.line, cur0.col⟩, curF)
  | .error e => .error e

/-- Identifier-character loop of `Lexer._identifier_or_keyword`. -/
def scanIdentChars : List Char → Nat → Nat → List Char × Cursor
  | c :: rest, l, co =>
    if c.isAlphanum ∨ c = '_' then
      let (s, cur) := scanIdentChars rest l (co + 1)
      (c :: s, cur)
    else ([], ⟨c :: rest, l, co⟩)
  | [], l, co => ([], ⟨[], l, co⟩)

/-- `Lexer._identifier_or_keyword`: keywords are not distinguished; the
token is always a NAME carrying the lexeme. -/
def scanIdent (cur0 : Cursor) : Token × Cursor :=
  let sl := cur0.line
  let sc := cur0.col
  let (chars, cur) := scanIdentChars cur0.rest cur0.line cur0.col
  (⟨.NAME, .str (String.mk chars), sl, sc⟩, cur)

/-- Body loop of `Lexer._string_literal` with simple backslash escapes;
fails at end of input, at end of input inside an escape, and on an
embedded raw newline. -/
def scanStringBody (quote : Char) (sl sc : Nat) :
    List Char → Nat → Nat → List Char → Except LexError (List Char × Cursor)
  | [], _, _, _ => .error ⟨.unterminatedString, sl, sc⟩
  | c :: rest, l, co, acc =>
    if c = bslashC then
      match rest with
      | [] => .error ⟨.eofInEscape, l, co + 1⟩
      | e :: rest2 =>
        let esc : Char :=
          if e = 'n' then '\n'
          else if e = 't' then '\t'
          else if e = 'r' then Char.ofNat 13
          else if e = bslashC then bslashC
          else if e = quote then quote
          else e
        let (l2, co2) := advPos e l (co + 1)
        scanStringBody quote sl sc rest2 l2 co2 (acc ++ [esc])
    else if c = quote then .ok (acc, ⟨rest, l, co + 1⟩)
    else if c = '\n' then .error ⟨.newlineInString, l, co⟩
    else scanStringBody quote sl sc rest l (co + 1) (acc ++ [c])

/-- `Lexer._string_literal`: consume the opening quote and scan the body. -/
def scanString (cur0 : Cursor) : Except LexError (Token × Cursor) :=
  match cur0.rest with
  | q :: rest =>
    match scanStringBody q cur0.line cur0.col rest cur0.line (cur0.col + 1) [] with
    | .ok (chars, cur) => .ok (⟨.STRING, .str (String.mk chars), cur0.line, cur0.col⟩, cur)
    | .error e => .error e
  | [] => .error ⟨.unterminatedString, cur0.line, cur0.col⟩

/-- The multi-character operator table of `Lexer._operator_or_punct`. -/
def multiOps : List (String × TokType) :=
  [(">>=", .RSHIFTEQUAL), ("<<=", .LSHIFTEQUAL), ("**=", .DOUBLE_STAREQUAL),
   ("//=", .DOUBLE_SLASHEQUAL),
   ("==", .EQEQUAL), ("!=", .NOTEQUAL), ("<=", .LESSEQUAL), (">=", .GREATEREQUAL),
   ("<<", .LSHIFT), (">>", .RSHIFT), ("**", .DOUBLE_STAR), ("//", .DOUBLE_SLASH),
   ("+=", .PLUSEQUAL), ("-=", .MINEQUAL), ("*=", .STAREQUAL), ("/=", .SLASHEQUAL),
   ("%=", .PERCENTEQUAL), ("@=", .ATEQUAL), ("&=", .AMPEREQUAL), ("|=", .PIPEEQUAL),
   ("^=", .CARETEQUAL), ("->", .ARROW)]

/-- The single-character operator table of `Lexer._operator_or_punct`. -/
def singleOps : List (Char × TokType) :=
  [('+', .PLUS), ('-', .MINUS), ('*', .STAR), ('/', .SLASH), ('%', .PERCENT),
   ('@', .AT), ('|', .PIPE), ('&', .AMPERSAND), ('^', .CARET), ('~', .TILDE),
   ('=', .EQUAL), ('<', .LESS), ('>', .GREATER),
   ('(', .LPAREN), (')', .RPAREN), ('[', .LBRACKET), (']', .RBRACKET),
   (lbraceC, .LBRACE), (rbraceC, .RBRACE),
   (',', .COMMA), (':', .COLON), (';', .SEMI), ('.', .DOT)]

/-- Dictionary membership test over the operator tables. -/
def findOp (s : String) : List (String × TokType) → Option TokType
  | [] => Option.none
  | (k, v) :: rest => if k = s then some v else findOp s rest

/-- Dictionary membership test over the single-character table. -/
def findOpC (c : Char) : List (Char × TokType) → Option TokType
  | [] => Option.none
  | (k, v) :: rest => if k = c then some v else findOpC c rest

/-- The table search of `Lexer._operator_or_punct`: greedy longest match,
three then two then one characters, yielding the kind, the matched
lexeme and the advanced cursor. -/
def opTokenFind (cur : Cursor) : Option (TokType × String × Cursor) :=
  match findOp (String.mk (cur.rest.take 3)) multiOps with
  | some ty => some (ty, String.mk (cur.rest.take 3), cur.advN (cur.rest.take 3).length)
  | Option.none =>
    match findOp (String.mk (cur.rest.take 2)) multiOps with
    | some ty => some (ty, String.mk (cur.rest.take 2), cur.advN (cur.rest.take 2).length)
    | Option.none =>
      match cur.rest.head? with
      | some c =>
        match findOpC c singleOps with
        | some ty => some (ty, String.mk [c], cur.adv)
        | Option.none => Option.none
      | Option.none => Option.none

/-- `Lexer._operator_or_punct`: the operator token at the scan's start
position. -/
def opToken (cur : Cursor) : Option (Token × Cursor) :=
  match opTokenFind cur with
  | some (ty, frag, c2) => some (⟨ty, .str frag, cur.line, cur.col⟩, c2)
  | Option.none => Option.none

/-- The non-line-start body of one iteration of `Lexer.tokenize`'s main
loop, dispatching on the current character. -/
def lexDispatch (st : LexState) (c : Char) : Except LexError (LexState × List Token) :=
  if c = ' ' ∨ c = '\t' ∨ c = Char.ofNat 13 then
    .ok ({ st with cur := st.cur.adv }, [])
  else if c = '#' then
    let (toks, cur) := handleComment st.cur
    .ok ({ st with cur := cur }, toks)
  else if c = '\n' then
    .ok ({ st with cur := st.cur.adv, at_line_start := true },
         [⟨.NEWLINE, .str ("\n"), st.cur.line, st.cur.col⟩])
  else if c.isDigit || (c == '.' && (match st.cur.peek 1 with
                                     | some d => d.isDigit
                                     | Option.none => false)) then
    match scanNumber st.cur with
    | .ok (tok, cur) => .ok ({ st with cur := cur }, [tok])
    | .error e => .error e
  else if c.isAlpha ∨ c = '_' then
    let (tok, cur) := scanIdent st.cur
    .ok ({ st with cur := cur }, [tok])
  else if c = dquoteC ∨ c = squoteC then
    match scanString st.cur with
    | .ok (tok, cur) => .ok ({ st with cur := cur }, [tok])
    | .error e => .error e
  else
    match opToken st.cur with
    | some (tok, cur) => .ok ({ st with cur := cur }, [tok])
    | Option.none => .error ⟨.unexpectedChar c, st.cur.line, st.cur.col⟩

/-- One iteration of the main `while` loop of `Lexer.tokenize`: line-start
handling when flagged, then dispatch; the boolean reports the `break`
taken when the input is exhausted right after line-start handling. -/
def lexIter (st : LexState) : Except LexError (LexState × List Token × Bool) :=
  if st.at_line_start then
    match handleLineStart st with
    | .error e => .error e
    | .ok (st1, ems) =>
      match st1.cur.rest.head? with
      | Option.none => .ok (st1, ems, true)
      | some c =>
        match lexDispatch st1 c with
        | .error e => .error e
        | .ok (st2, ems2) => .ok (st2, ems ++ ems2, false)
  else
    match st.cur.rest.head? with
    | some c =>
      match lexDispatch st c with
      | .error e => .error e
      | .ok (st2, ems2) => .ok (st2, ems2, false)
    | Option.none => .ok (st, [], true)

/-- End-of-input epilogue of `Lexer.tokenize`: synthesize a trailing
NEWLINE if the last token is not one, flush outstanding indentation
levels as DEDENTs, and append the ENDMARKER sentinel. -/
def lexFinish (st : LexState) (acc : List Token) : List Token :=
  (match acc.getLast? with
   | some t =>
     if t.type = TokType.NEWLINE then acc
     else acc ++ [⟨.NEWLINE, .str ("\n"), st.cur.line, st.cur.col⟩]
   | Option.none => acc)
  ++ List.replicate (st.indent_stack.length - 1) ⟨.DEDENT, .none, st.cur.line, st.cur.col⟩
  ++ [⟨.ENDMARKER, .none, st.cur.line, st.cur.col⟩]

/-- The main loop of `Lexer.tokenize`.  Fuel only bounds the embedding's
recursion; every iteration on nonempty input consumes at least one
character, so the fuel passed by `tokenize` is never exhausted. -/
def lexLoop : Nat → LexState → List Token → Except LexError (List Token)
  | 0, st, _ => .error ⟨.outOfFuel, st.cur.line, st.cur.col⟩
  | fuel + 1, st, acc =>
    match st.cur.rest.head? with
    | Option.none => .ok (lexFinish st acc)
    | some _ =>
      match lexIter st with
      | .error e => .error e
      | .ok (st1, ems, brk) =>
        if brk then .ok (lexFinish st1 (acc ++ ems))
        else lexLoop fuel st1 (acc ++ ems)

/-- `Lexer(text).tokenize()`: position (1,1), indent stack `[0]`, line
start flag set. -/
def tokenize (text : String) : Except LexError (List Token) :=
  lexLoop (text.length + 1) ⟨⟨text.toList, 1, 1⟩, [0], true⟩ []

/-! ## Symbol table (`symtable.py`) -/

/-- The `SymbolEntry` dataclass. -/
structure SymbolEntry where
  name : String
  kind : String
  typ : String
  scope_name : String
  offset : Option Int := Option.none
  deriving DecidableEq, Repr

/-- The single failure `symtable.py`'s `define` raises: redeclaration of a
name in the same scope (a `RuntimeError` carrying the scope and name). -/
inductive SymErr where
  | redeclared (scope : String) (name : String)
  deriving DecidableEq, Repr

/-- A `SymbolTable` scope: its name, its own `name → entry` mapping (an
insertion-ordered association list, like a Python dict), and an optional
parent scope. -/
inductive SymTable where
  | mk (scope_name : String) (entries : List (String × SymbolEntry)) (parent : Option SymTable)

/-- Scope name accessor. -/
def SymTable.scope_name : SymTable → String
  | .mk sn _ _ => sn

/-- Entry-map accessor. -/
def SymTable.entries : SymTable → List (String × SymbolEntry)
  | .mk _ es _ => es

/-- Parent accessor. -/
def SymTable.parent : SymTable → Option SymTable
  | .mk _ _ p => p

/-- `SymbolTable.define`: insert into this scope only, failing if this
exact scope already has the name; parents are never consulted. -/
def SymTable.define (t : SymTable) (name kind typ : String) : Except SymErr SymTable :=
  match t with
  | .mk sn es p =>
    if (es.lookup name).isSome then .error (.redeclared sn name)
    else .ok (.mk sn (es ++ [(name, ⟨name, kind, typ, sn, Option.none⟩)]) p)

/-- `SymbolTable.lookup_local`: search only this scope's entries. -/
def SymTable.lookup_local (t : SymTable) (name : String) : Option SymbolEntry :=
  t.entries.lookup name

/-- `SymbolTable.lookup`: search this scope, then walk parent links. -/
def SymTable.lookup (t : SymTable) (name : String) : Option SymbolEntry :=
  match t with
  | .mk _ es p =>
    match es.lookup name with
    | some e => some e
    | Option.none =>
      match p with
      | some pt => pt.lookup name
      | Option.none => Option.none

/-- The guarded registration pattern used at both `define` call sites of
`parser.py` that register into an existing scope (plain-name assignment
targets, and the function's own name): look the name up in the current
scope only and call `define` only when it is absent. -/
def SymTable.defineIfAbsent (t : SymTable) (name kind typ : String) : Except SymErr SymTable :=
  if (t.lookup_local name).isSome then .ok t else t.define name kind typ

/-! ## AST (`astnodes.py`) -/

mutual
/-- Expression nodes of `astnodes.py` (constructors map one-to-one to the
classes `Name`, `Num`, `Str`, `Bool`, `NoneLiteral`, `BinOp`, `UnaryOp`,
`BoolOp`, `Compare`, `Call`, `Attribute`, `Subscript`).  `num` carries the
scanned lexeme; the source stores the `float` the lexer produced. -/
inductive Expr where
  | name (id : String)
  | num (value : String)
  | strLit (value : String)
  | boolLit (value : Bool)
  | noneLiteral
  | binOp (left : Expr) (op : String) (right : Expr)
  | unaryOp (op : String) (operand : Expr)
  | boolOp (op : String) (values : List Expr)
  | compare (left : Expr) (ops : List String) (comparators : List Expr)
  | call (func : Expr) (args : List Expr) (keywords : List KeywordArg)
  | attribute (value : Expr) (attr : String)
  | subscript (value : Expr) (slice : Slice)

/-- The `KeywordArg` node: a `name=value` call argument. -/
inductive KeywordArg where
  | mk (name : String) (value : Expr)

/-- The `Slice` node: `start:stop:step`, each part optional. -/
inductive Slice where
  | mk (start : Option Expr) (stop : Option Expr) (step : Option Expr)
end

/-- The `Arg` node: a formal parameter (annotation and default unused by
the parser, which never sets them). -/
structure Arg where
  name : String
  annotation : Option Expr := Option.none
  default : Option Expr := Option.none

/-- The `Arguments` node: the positional formal-parameter list. -/
structure Arguments where
  args : List Arg

/-- Statement nodes of `astnodes.py` (constructors map one-to-one to
`ExprStmt`, `Assign`, `AugAssign`, `Return`, `Pass`, `Break`, `Continue`,
`If`, `While`, `For`, `FunctionDef`). -/
inductive Stmt where
  | exprStmt (value : Expr)
  | assign (targets : List Expr) (value : Expr)
  | augAssign (target : Expr) (op : String) (value : Expr)
  | returnStmt (value : Option Expr)
  | passStmt
  | breakStmt
  | continueStmt
  | ifStmt (test : Expr) (body : List Stmt) (orelse : List Stmt)
  | whileStmt (test : Expr) (body : List Stmt) (orelse : List Stmt)
  | forStmt (target : Expr) (iter : Expr) (body : List Stmt) (orelse : List Stmt)
  | functionDef (name : String) (args : Arguments) (body : List Stmt)
      (returns : Option Expr) (decorators : List Expr)

/-- The `Program` node. -/
structure Program where
  body : List Stmt

/-! ## Parser (`parser.py`) -/

/-- The distinct `ParserError` messages `parser.py` raises. -/
inductive PErrKind where
  | expectedToken (ty : TokType)
  | expectedKeyword (w : String)
  | unexpectedIndent
  | expectedNewline
  | notAssignable
  | expectedParamName
  | expectedAtom
  deriving DecidableEq, Repr

/-- Everything a parse run can raise: syntax errors with the offending
token, the symbol-table redeclaration `RuntimeError`, the empty-stack
`RuntimeError`s, the empty-token-list `ValueError` of the constructor,
and fuel exhaustion of the embedding's bounded recursion (which no run
with the fuel `parseTokens` supplies reaches). -/
inductive PError where
  | syntaxErr (kind : PErrKind) (tok : Token)
  | redeclared (scope : String) (name : String)
  | emptyScopeStack
  | emptyTokens
  | outOfFuel (tok : Token)
  deriving DecidableEq, Repr

/-- Default token used only to totalize list indexing (never read: the
parser's position always stays within the token list, as in the source). -/
def dummyTok : Token := ⟨.ENDMARKER, .none, 0, 0⟩

/-- Parser state: token list, cursor, and the symbol-table scope stack
(head of `symstack` is the Python stack's last element, i.e. the current
scope; each pushed scope's `parent` is the table below at push time). -/
structure PState where
  tokens : List Token
  pos : Nat
  symstack : List SymTable

/-- `Parser.current`. -/
def PState.current (st : PState) : Token := st.tokens.getD st.pos dummyTok

/-- `Parser._advance`: move forward unless already at the last token. -/
def PState.adv (st : PState) : PState :=
  if st.pos < st.tokens.length - 1 then { st with pos := st.pos + 1 } else st

/-- `Parser._peek_token(k)`: the token `k` ahead, clamped to the last. -/
def PState.peekToken (st : PState) (k : Nat) : Token :=
  if st.pos + k ≥ st.tokens.length then st.tokens.getLastD dummyTok
  else st.tokens.getD (st.pos + k) dummyTok

/-- `Parser._eat`. -/
def eat (st : PState) (ty : TokType) : Except PError (Token × PState) :=
  let tok := st.current
  if tok.type = ty then .ok (tok, st.adv)
  else .error (.syntaxErr (.expectedToken ty) tok)

/-- `Parser._is_keyword`: current token is a NAME with that lexeme. -/
def isKw (st : PState) (w : String) : Bool :=
  st.current.type == TokType.NAME && st.current.value == TokValue.str w

/-- `Parser._expect_keyword`. -/
def expectKw (st : PState) (w : String) : Except PError (Token × PState) :=
  let tok := st.current
  if tok.type = TokType.NAME ∧ tok.value = TokValue.str w then .ok (tok, st.adv)
  else .error (.syntaxErr (.expectedKeyword w) tok)

/-- The `augassign_ops` map of `Parser.__init__`. -/
def augassignOps : TokType → Option String
  | .PLUSEQUAL => some ("+=")
  | .MINEQUAL => some ("-=")
  | .STAREQUAL => some ("*=")
  | .SLASHEQUAL => some ("/=")
  | .DOUBLE_SLASHEQUAL => some ("//=")
  | .PERCENTEQUAL => some ("%=")
  | .AMPEREQUAL => some ("&=")
  | .PIPEEQUAL => some ("|=")
  | .CARETEQUAL => some ("^=")
  | .LSHIFTEQUAL => some ("<<=")
  | .RSHIFTEQUAL => some (">>=")
  | .DOUBLE_STAREQUAL => some ("**=")
  | _ => Option.none

/-- `Parser._map_compare_op` (total here; the source only calls it on the
six comparison token kinds). -/
def mapCompareOp : TokType → String
  | .EQEQUAL => "=="
  | .NOTEQUAL => "!="
  | .LESS => "<"
  | .GREATER => ">"
  | .LESSEQUAL => "<="
  | .GREATEREQUAL => ">="
  | _ => ""

/-- Whether a token kind is one of the six comparison operators of
`Parser.parse_comparison`. -/
def isCompOp (ty : TokType) : Bool :=
  ty == .EQEQUAL || ty == .NOTEQUAL || ty == .LESS || ty == .GREATER ||
  ty == .LESSEQUAL || ty == .GREATEREQUAL

/-- `Parser._ensure_assignable`: only names, attribute accesses and
subscripts may stand left of an assignment. -/
def ensureAssignable (st : PState) (e : Expr) : Except PError Expr :=
  match e with
  | .name _ => .ok e
  | .attribute _ _ => .ok e
  | .subscript _ _ => .ok e
  | _ => .error (.syntaxErr .notAssignable st.current)

/-- The string payload of a token (NAME/STRING lexemes; the source reads
`token.value` directly). -/
def TokValue.asStr : TokValue → String
  | .str s => s
  | .num s => s
  | .none => ""

/-- `SymbolTableStack.push_scope`: new child of the current top. -/
def PState.pushScope (st : PState) (sn : String) : PState :=
  { st with symstack := SymTable.mk sn [] st.symstack.head? :: st.symstack }

/-- `SymbolTableStack.pop_scope`. -/
def PState.popScope (st : PState) : Except PError PState :=
  match st.symstack with
  | [] => .error .emptyScopeStack
  | _ :: rest => .ok { st with symstack := rest }

/-- `SymbolTableStack.define` (unguarded) on the current scope. -/
def PState.defineCur (st : PState) (name kind typ : String) : Except PError PState :=
  match st.symstack with
  | [] => .error .emptyScopeStack
  | top :: rest =>
    match top.define name kind typ with
    | .ok t => .ok { st with symstack := t :: rest }
    | .error (.redeclared s n) => .error (.redeclared s n)

/-- The guarded registration (`if scope.lookup_local(name) is None:
scope.define(...)`) on the current scope. -/
def PState.defineIfAbsentCur (st : PState) (name kind typ : String) : Except PError PState :=
  match st.symstack with
  | [] => .error .emptyScopeStack
  | top :: rest =>
    match top.defineIfAbsent name kind typ with
    | .ok t => .ok { st with symstack := t :: rest }
    | .error (.redeclared s n) => .error (.redeclared s n)

/-- The parameter-registration loop of `Parser.parse_function_def`: each
formal parameter is defined (unguarded) in the function's fresh scope. -/
def defineParams : List Arg → PState → Except PError PState
  | [], st => .ok st
  | a :: rest, st =>
    match st.defineCur a.name ("param") ("unknown") with
    | .ok st2 => defineParams rest st2
    | .error e => .error e

/-- Rebuild of the `orelse` chaining of `Parser.parse_if_stmt`: each
`elif` clause becomes an `If` node placed as the sole element of the
previous level's `orelse`; the final `else` statements extend the
innermost `orelse`. -/
def buildOrelse : List (Expr × List Stmt) → List Stmt → List Stmt
  | [], elseB => elseB
  | (t, b) :: rest, elseB => [Stmt.ifStmt t b (buildOrelse rest elseB)]

/-- `Parser.parse_pass_stmt`. -/
def parsePassStmt (st : PState) : Except PError (Stmt × PState) :=
  match expectKw st ("pass") with
  | .ok (_, st) => .ok (.passStmt, st)
  | .error e => .error e

/-- `Parser.parse_break_stmt`. -/
def parseBreakStmt (st : PState) : Except PError (Stmt × PState) :=
  match expectKw st ("break") with
  | .ok (_, st) => .ok (.breakStmt, st)
  | .error e => .error e

/-- `Parser.parse_continue_stmt`. -/
def parseContinueStmt (st : PState) : Except PError (Stmt × PState) :=
  match expectKw st ("continue") with
  | .ok (_, st) => .ok (.continueStmt, st)
  | .error e => .error e

mutual

/-- `Parser.parse_statement`: compound-statement dispatch, else simple. -/
def parseStatement : Nat → PState → Except PError (Stmt × PState)
  | 0, st => .error (.outOfFuel st.current)
  | f + 1, st =>
    if isKw st ("if") then parseIfStmt f st
    else if isKw st ("while") then parseWhileStmt f st
    else if isKw st ("for") then parseForStmt f st
    else if isKw st ("def") then parseFunctionDef f st
    else parseSimpleStmt f st

/-- `Parser.parse_simple_stmt`: one simple statement, then the trailing
NEWLINE (or an accepted DEDENT/ENDMARKER). -/
def parseSimpleStmt : Nat → PState → Except PError (Stmt × PState)
  | 0, st => .error (.outOfFuel st.current)
  | f + 1, st => do
    let (node, st) ←
      if isKw st ("return") then parseReturnStmt f st
      else if isKw st ("pass") then parsePassStmt st
      else if isKw st ("break") then parseBreakStmt st
      else if isKw st ("continue") then parseContinueStmt st
      else parseExprOrAssignment f st
    if st.current.type = TokType.NEWLINE then .ok (node, st.adv)
    else if st.current.type = TokType.DEDENT ∨ st.current.type = TokType.ENDMARKER then
      .ok (node, st)
    else .error (.syntaxErr .expectedNewline st.current)

/-- `Parser.parse_return_stmt`. -/
def parseReturnStmt : Nat → PState → Except PError (Stmt × PState)
  | 0, st => .error (.outOfFuel st.current)
  | f + 1, st => do
    let (_, st) ← expectKw st ("return")
    if st.current.type = TokType.NEWLINE ∨ st.current.type = TokType.DEDENT ∨
       st.current.type = TokType.ENDMARKER then
      .ok (.returnStmt Option.none, st)
    else do
      let (value, st) ← parseExpression f st
      .ok (.returnStmt (some value), st)

/-- `Parser.parse_expr_or_assignment`: parse a full expression, then
promote on `=` or an augmented-assignment operator. -/
def parseExprOrAssignment : Nat → PState → Except PError (Stmt × PState)
  | 0, st => .error (.outOfFuel st.current)
  | f + 1, st => do
    let (left, st) ← parseExpression f st
    let tok := st.current
    if tok.type = TokType.EQUAL then do
      let target ← ensureAssignable st left
      let st := st.adv
      let (value, st) ← parseExpression f st
      let st ←
        match target with
        | .name id => st.defineIfAbsentCur id ("variable") ("unknown")
        | _ => .ok st
      .ok (.assign [target] value, st)
    else
      match augassignOps tok.type with
      | some opStr => do
        let target ← ensureAssignable st left
        let st := st.adv
        let (value, st) ← parseExpression f st
        .ok (.augAssign target opStr value, st)
      | Option.none => .ok (.exprStmt left, st)

/-- `Parser.parse_if_stmt` (the `elif` chain is collected by
`parseElifs` and rebuilt by `buildOrelse`). -/
def parseIfStmt : Nat → PState → Except PError (Stmt × PState)
  | 0, st => .error (.outOfFuel st.current)
  | f + 1, st => do
    let (_, st) ← expectKw st ("if")
    let (test, st) ← parseExpression f st
    let (_, st) ← eat st .COLON
    let (body, st) ← parseBlock f st
    let (clauses, st) ← parseElifs f st
    let (elseB, st) ←
      if isKw st ("else") then do
        let st := st.adv
        let (_, st) ← eat st .COLON
        parseBlock f st
      else .ok ([], st)
    .ok (.ifStmt test body (buildOrelse clauses elseB), st)

/-- The `while self._is_keyword("elif")` loop of `parse_if_stmt`. -/
def parseElifs : Nat → PState → Except PError (List (Expr × List Stmt) × PState)
  | 0, st => .error (.outOfFuel st.current)
  | f + 1, st =>
    if isKw st ("elif") then do
      let st := st.adv
      let (t, st) ← parseExpression f st
      let (_, st) ← eat st .COLON
      let (b, st) ← parseBlock f st
      let (rest, st) ← parseElifs f st
      .ok ((t, b) :: rest, st)
    else .ok ([], st)

/-- `Parser.parse_while_stmt`. -/
def parseWhileStmt : Nat → PState → Except PError (Stmt × PState)
  | 0, st => .error (.outOfFuel st.current)
  | f + 1, st => do
    let (_, st) ← expectKw st ("while")
    let (test, st) ← parseExpression f st
    let (_, st) ← eat st .COLON
    let (body, st) ← parseBlock f st
    let (orelse, st) ←
      if isKw st ("else") then do
        let st := st.adv
        let (_, st) ← eat st .COLON
        parseBlock f st
      else .ok ([], st)
    .ok (.whileStmt test body orelse, st)

/-- `Parser.parse_for_stmt`. -/
def parseForStmt : Nat → PState → Except PError (Stmt × PState)
  | 0, st => .error (.outOfFuel st.current)
  | f + 1, st => do
    let (_, st) ← expectKw st ("for")
    let (target, st) ← parseExpression f st
    let (_, st) ← expectKw st ("in")
    let (iterE, st) ← parseExpression f st
    let (_, st) ← eat st .COLON
    let (body, st) ← parseBlock f st
    let (orelse, st) ←
      if isKw st ("else") then do
        let st := st.adv
        let (_, st) ← eat st .COLON
        parseBlock f st
      else .ok ([], st)
    .ok (.forStmt target iterE body orelse, st)

/-- `Parser.parse_function_def`: register the function's name in the
enclosing scope (guarded), open a child scope named `func <name>`,
register each parameter (unguarded: duplicates fault), parse the body,
pop the scope. -/
def parseFunctionDef : Nat → PState → Except PError (Stmt × PState)
  | 0, st => .error (.outOfFuel st.current)
  | f + 1, st => do
    let (_, st) ← expectKw st ("def")
    let (nameTok, st) ← eat st .NAME
    let funcName := TokValue.asStr nameTok.value
    let st ← st.defineIfAbsentCur funcName ("function") ("function")
    let (_, st) ← eat st .LPAREN
    let (params, st) ← parseParameters f st
    let (_, st) ← eat st .RPAREN
    let (_, st) ← eat st .COLON
    let st := st.pushScope (String.append ("func ") funcName)
    let st ← defineParams params st
    let (body, st) ← parseBlock f st
    let st ← st.popScope
    .ok (.functionDef funcName ⟨params⟩ body Option.none [], st)

/-- `Parser.parse_parameters`. -/
def parseParameters : Nat → PState → Except PError (List Arg × PState)
  | 0, st => .error (.outOfFuel st.current)
  | f + 1, st =>
    if st.current.type = TokType.RPAREN then .ok ([], st)
    else parseParamLoop f st []

/-- The `while True` loop of `parse_parameters` (a trailing comma right
before the closing parenthesis ends the list). -/
def parseParamLoop : Nat → PState → List Arg → Except PError (List Arg × PState)
  | 0, st, _ => .error (.outOfFuel st.current)
  | f + 1, st, acc => do
    if st.current.type ≠ TokType.NAME then
      .error (.syntaxErr .expectedParamName st.current)
    else do
      let (nameTok, st) ← eat st .NAME
      let acc := acc ++ [⟨TokValue.asStr nameTok.value, Option.none, Option.none⟩]
      if st.current.type = TokType.COMMA then do
        let nextTok := st.peekToken 1
        let (_, st) ← eat st .COMMA
        if nextTok.type = TokType.RPAREN then .ok (acc, st)
        else parseParamLoop f st acc
      else .ok (acc, st)

/-- `Parser.parse_block`: indented suite, or a single inline simple
statement after the colon. -/
def parseBlock : Nat → PState → Except PError (List Stmt × PState)
  | 0, st => .error (.outOfFuel st.current)
  | f + 1, st =>
    if st.current.type = TokType.NEWLINE then do
      let (_, st) ← eat st .NEWLINE
      let (_, st) ← eat st .INDENT
      let (stmts, st) ← parseBlockStmts f st []
      let (_, st) ← eat st .DEDENT
      .ok (stmts, st)
    else do
      let (s, st) ← parseSimpleStmt f st
      .ok ([s], st)

/-- The statement loop of the indented form of `parse_block`. -/
def parseBlockStmts : Nat → PState → List Stmt → Except PError (List Stmt × PState)
  | 0, st, _ => .error (.outOfFuel st.current)
  | f + 1, st, acc =>
    if st.current.type = TokType.DEDENT ∨ st.current.type = TokType.ENDMARKER then
      .ok (acc, st)
    else if st.current.type = TokType.NEWLINE then parseBlockStmts f st.adv acc
    else do
      let (s, st) ← parseStatement f st
      parseBlockStmts f st (acc ++ [s])

/-- `Parser.parse_expression`. -/
def parseExpression : Nat → PState → Except PError (Expr × PState)
  | 0, st => .error (.outOfFuel st.current)
  | f + 1, st => parseOr f st

/-- `Parser.parse_or`. -/
def parseOr : Nat → PState → Except PError (Expr × PState)
  | 0, st => .error (.outOfFuel st.current)
  | f + 1, st => do
    let (node, st) ← parseAnd f st
    parseOrLoop f node st

/-- The `while self._is_keyword("or")` loop of `parse_or`, including the
incremental flattening into one `BoolOp`. -/
def parseOrLoop : Nat → Expr → PState → Except PError (Expr × PState)
  | 0, _, st => .error (.outOfFuel st.current)
  | f + 1, node, st =>
    if isKw st ("or") then do
      let st := st.adv
      let (right, st) ← parseAnd f st
      let node :=
        match node with
        | .boolOp op vs =>
          if op = "or" then Expr.boolOp op (vs ++ [right])
          else Expr.boolOp ("or") [node, right]
        | _ => Expr.boolOp ("or") [node, right]
      parseOrLoop f node st
    else .ok (node, st)

/-- `Parser.parse_and`. -/
def parseAnd : Nat → PState → Except PError (Expr × PState)
  | 0, st => .error (.outOfFuel st.current)
  | f + 1, st => do
    let (node, st) ← parseNot f st
    parseAndLoop f node st

/-- The `while self._is_keyword("and")` loop of `parse_and`. -/
def parseAndLoop : Nat → Expr → PState → Except PError (Expr × PState)
  | 0, _, st => .error (.outOfFuel st.current)
  | f + 1, node, st =>
    if isKw st ("and") then do
      let st := st.adv
      let (right, st) ← parseNot f st
      let node :=
        match node with
        | .boolOp op vs =>
          if op = "and" then Expr.boolOp op (vs ++ [right])
          else Expr.boolOp ("and") [node, right]
        | _ => Expr.boolOp ("and") [node, right]
      parseAndLoop f node st
    else .ok (node, st)

/-- `Parser.parse_not`. -/
def parseNot : Nat → PState → Except PError (Expr × PState)
  | 0, st => .error (.outOfFuel st.current)
  | f + 1, st =>
    if isKw st ("not") then do
      let st := st.adv
      let (operand, st) ← parseNot f st
      .ok (.unaryOp ("not") operand, st)
    else parseComparison f st

/-- `Parser.parse_comparison`: collect `(op, comparator)` pairs; one
`Compare` node when at least one pair was seen. -/
def parseComparison : Nat → PState → Except PError (Expr × PState)
  | 0, st => .error (.outOfFuel st.current)
  | f + 1, st => do
    let (node, st) ← parseArithExpr f st
    let (ops, comps, st) ← parseCompLoop f st [] []
    if ops.isEmpty then .ok (node, st)
    else .ok (.compare node ops comps, st)

/-- The comparison-operator loop of `parse_comparison`. -/
def parseCompLoop : Nat → PState → List String → List Expr →
    Except PError (List String × List Expr × PState)
  | 0, st, _, _ => .error (.outOfFuel st.current)
  | f + 1, st, ops, comps =>
    if isCompOp st.current.type then do
      let opTok := st.current
      let st := st.adv
      let opStr := mapCompareOp opTok.type
      let (right, st) ← parseArithExpr f st
      parseCompLoop f st (ops ++ [opStr]) (comps ++ [right])
    else .ok (ops, comps, st)

/-- `Parser.parse_arith_expr`. -/
def parseArithExpr : Nat → PState → Except PError (Expr × PState)
  | 0, st => .error (.outOfFuel st.current)
  | f + 1, st => do
    let (node, st) ← parseTerm f st
    parseArithLoop f node st

/-- The `+`/`-` loop of `parse_arith_expr` (left-associative). -/
def parseArithLoop : Nat → Expr → PState → Except PError (Expr × PState)
  | 0, _, st => .error (.outOfFuel st.current)
  | f + 1, node, st =>
    if st.current.type = TokType.PLUS ∨ st.current.type = TokType.MINUS then do
      let opTok := st.current
      let st := st.adv
      let opStr := if opTok.type = TokType.PLUS then "+" else "-"
      let (right, st) ← parseTerm f st
      parseArithLoop f (.binOp node opStr right) st
    else .ok (node, st)

/-- `Parser.parse_term`. -/
def parseTerm : Nat → PState → Except PError (Expr × PState)
  | 0, st => .error (.outOfFuel st.current)
  | f + 1, st => do
    let (node, st) ← parseFactor f st
    parseTermLoop f node st

/-- The `*`/`/`/`//`/`%` loop of `parse_term` (left-associative). -/
def parseTermLoop : Nat → Expr → PState → Except PError (Expr × PState)
  | 0, _, st => .error (.outOfFuel st.current)
  | f + 1, node, st =>
    if st.current.type = TokType.STAR ∨ st.current.type = TokType.SLASH ∨
       st.current.type = TokType.DOUBLE_SLASH ∨ st.current.type = TokType.PERCENT then do
      let opTok := st.current
      let st := st.adv
      let opStr :=
        if opTok.type = TokType.STAR then "*"
        else if opTok.type = TokType.SLASH then "/"
        else if opTok.type = TokType.DOUBLE_SLASH then "//"
        else "%"
      let (right, st) ← parseFactor f st
      parseTermLoop f (.binOp node opStr right) st
    else .ok (node, st)

/-- `Parser.parse_factor`: unary `+`/`-`/`~` prefixes, else power. -/
def parseFactor : Nat → PState → Except PError (Expr × PState)
  | 0, st => .error (.outOfFuel st.current)
  | f + 1, st =>
    if st.current.type = TokType.PLUS ∨ st.current.type = TokType.MINUS ∨
       st.current.type = TokType.TILDE then do
      let opTok := st.current
      let st := st.adv
      let opStr :=
        if opTok.type = TokType.PLUS then "+"
        else if opTok.type = TokType.MINUS then "-"
        else "~"
      let (operand, st) ← parseFactor f st
      .ok (.unaryOp opStr operand, st)
    else parsePower f st

/-- `Parser.parse_power`: one optional right-hand `** factor`. -/
def parsePower : Nat → PState → Except PError (Expr × PState)
  | 0, st => .error (.outOfFuel st.current)
  | f + 1, st => do
    let (node, st) ← parsePrimary f st
    if st.current.type = TokType.DOUBLE_STAR then do
      let st := st.adv
      let (right, st) ← parseFactor f st
      .ok (.binOp node ("**") right, st)
    else .ok (node, st)

/-- `Parser.parse_primary`: an atom followed by a postfix chain. -/
def parsePrimary : Nat → PState → Except PError (Expr × PState)
  | 0, st => .error (.outOfFuel st.current)
  | f + 1, st => do
    let (node, st) ← parseAtom f st
    parsePostfixLoop f node st

/-- The attribute/call/subscript postfix loop of `parse_primary` (single
simple index only; no slices at the grammar level). -/
def parsePostfixLoop : Nat → Expr → PState → Except PError (Expr × PState)
  | 0, _, st => .error (.outOfFuel st.current)
  | f + 1, node, st =>
    if st.current.type = TokType.DOT then do
      let st := st.adv
      let (nameTok, st) ← eat st .NAME
      parsePostfixLoop f (.attribute node (TokValue.asStr nameTok.value)) st
    else if st.current.type = TokType.LPAREN then do
      let st := st.adv
      let (args, kws, st) ← parseArglist f st
      let (_, st) ← eat st .RPAREN
      parsePostfixLoop f (.call node args kws) st
    else if st.current.type = TokType.LBRACKET then do
      let st := st.adv
      let (indexE, st) ← parseExpression f st
      let (_, st) ← eat st .RBRACKET
      parsePostfixLoop f (.subscript node (.mk (some indexE) Option.none Option.none)) st
    else .ok (node, st)

/-- `Parser.parse_arglist`. -/
def parseArglist : Nat → PState → Except PError (List Expr × List KeywordArg × PState)
  | 0, st => .error (.outOfFuel st.current)
  | f + 1, st =>
    if st.current.type = TokType.RPAREN then .ok ([], [], st)
    else parseArglistLoop f st [] []

/-- The argument loop of `parse_arglist` (`NAME =` starts a keyword
argument; a trailing comma right before `)` ends the list). -/
def parseArglistLoop : Nat → PState → List Expr → List KeywordArg →
    Except PError (List Expr × List KeywordArg × PState)
  | 0, st, _, _ => .error (.outOfFuel st.current)
  | f + 1, st, args, kws => do
    let (args, kws, st) ←
      if st.current.type = TokType.NAME ∧ (st.peekToken 1).type = TokType.EQUAL then do
        let (nameTok, st) ← eat st .NAME
        let (_, st) ← eat st .EQUAL
        let (value, st) ← parseExpression f st
        .ok (args, kws ++ [KeywordArg.mk (TokValue.asStr nameTok.value) value], st)
      else do
        let (e, st) ← parseExpression f st
        .ok (args ++ [e], kws, st)
    if st.current.type = TokType.COMMA then do
      let nextTok := st.peekToken 1
      let (_, st) ← eat st .COMMA
      if nextTok.type = TokType.RPAREN then .ok (args, kws, st)
      else parseArglistLoop f st args kws
    else .ok (args, kws, st)

/-- `Parser.parse_atom`: NAME (with `True`/`False`/`None` recognized by
lexeme), NUMBER, STRING, or a parenthesized expression. -/
def parseAtom : Nat → PState → Except PError (Expr × PState)
  | 0, st => .error (.outOfFuel st.current)
  | f + 1, st =>
    let tok := st.current
    if tok.type = TokType.NAME then
      let st := st.adv
      if tok.value = TokValue.str ("True") then .ok (.boolLit true, st)
      else if tok.value = TokValue.str ("False") then .ok (.boolLit false, st)
      else if tok.value = TokValue.str ("None") then .ok (.noneLiteral, st)
      else .ok (.name (TokValue.asStr tok.value), st)
    else if tok.type = TokType.NUMBER then
      .ok (.num (TokValue.asStr tok.value), st.adv)
    else if tok.type = TokType.STRING then
      .ok (.strLit (TokValue.asStr tok.value), st.adv)
    else if tok.type = TokType.LPAREN then do
      let st := st.adv
      let (e, st) ← parseExpression f st
      let (_, st) ← eat st .RPAREN
      .ok (e, st)
    else .error (.syntaxErr .expectedAtom tok)

/-- The top-level statement loop of `Parser.parse`. -/
def parseProgramLoop : Nat → PState → List Stmt → Except PError (List Stmt × PState)
  | 0, st, _ => .error (.outOfFuel st.current)
  | f + 1, st, acc =>
    if st.current.type = TokType.ENDMARKER then .ok (acc, st)
    else if st.current.type = TokType.NEWLINE then parseProgramLoop f st.adv acc
    else if st.current.type = TokType.INDENT ∨ st.current.type = TokType.DEDENT then
      .error (.syntaxErr .unexpectedIndent st.current)
    else do
      let (s, st) ← parseStatement f st
      parseProgramLoop f st (acc ++ [s])

end

/-- `parse_tokens`: construct a parser (empty token lists are a
`ValueError`; the symbol stack starts with the pushed `global` scope) and
run `Parser.parse`.  The fuel is ample for the bounded descent (every
recursive call consumes one unit and the grammar's nesting is bounded by
the token count). -/
def parseTokens (toks : List Token) : Except PError Program :=
  if toks.isEmpty then .error .emptyTokens
  else
    let st : PState := ⟨toks, 0, [SymTable.mk ("global") [] Option.none]⟩
    match parseProgramLoop ((toks.length + 1) * 50) st [] with
    | .ok (body, _) => .ok ⟨body⟩
    | .error e => .error e

/-- Lex then parse. -/
inductive FrontErr where
  | lexErr (e : LexError)
  | parseErr (e : PError)
  deriving DecidableEq, Repr

/-- The lexer→parser front half of the pipeline. -/
def lexParse (src : String) : Except FrontErr Program :=
  match tokenize src with
  | .error e => .error (.lexErr e)
  | .ok toks =>
    match parseTokens toks with
    | .ok p => .ok p
    | .error e => .error (.parseErr e)

/-! ## Three-address-code generator (`codegen3ac.py`) -/

/-- The `TACInstr` dataclass. -/
structure TACInstr where
  op : String
  arg1 : Option String := Option.none
  arg2 : Option String := Option.none
  result : Option String := Option.none
  label : Option String := Option.none
  comment : Option String := Option.none
  deriving DecidableEq, Repr

/-- The one failure the generator can raise on parser-produced trees: the
`NotImplementedError` of `get_lvalue_place` on a non-assignable target
(reachable through `for`-loop targets, which the parser does not
validate). -/
inductive GenErr where
  | lvalueUnsupported
  deriving DecidableEq, Repr

/-- `CodeGenerator3AC` state: emitted code, the temporary and label
counters, and the break/continue label stacks (heads are the Python
lists' last elements). -/
structure Gen where
  code : List TACInstr
  temp_count : Nat
  label_count : Nat
  break_stack : List String
  continue_stack : List String
  deriving DecidableEq, Repr

/-- `CodeGenerator3AC.__init__`. -/
def Gen.init : Gen := ⟨[], 0, 0, [], []⟩

/-- `CodeGenerator3AC.new_temp`: `t1`, `t2`, ... -/
def Gen.new_temp (g : Gen) : String × Gen :=
  (String.append ("t") (toString (g.temp_count + 1)),
   { g with temp_count := g.temp_count + 1 })

/-- `CodeGenerator3AC.new_label` with an explicit prefix (every call site
passes one). -/
def Gen.new_label (g : Gen) (pre : String) : String × Gen :=
  (String.append pre (toString (g.label_count + 1)),
   { g with label_count := g.label_count + 1 })

/-- `CodeGenerator3AC.emit`. -/
def Gen.emit (g : Gen) (op : String) (arg1 arg2 result label comment : Option String) : Gen :=
  { g with code := g.code ++ [⟨op, arg1, arg2, result, label, comment⟩] }

/-- `CodeGenerator3AC.emit_label`. -/
def Gen.emitLabel (g : Gen) (label : String) : Gen :=
  g.emit ("label") Option.none Option.none Option.none (some label) Option.none

/-- `CodeGenerator3AC.visit_break`: with an empty loop stack, degrade to
a jump to the sentinel placeholder label instead of failing. -/
def visitBreak (g : Gen) : Gen :=
  match g.break_stack with
  | [] => g.emit ("goto") Option.none Option.none (some ("__INVALID_BREAK__")) Option.none Option.none
  | endLabel :: _ =>
    g.emit ("goto") Option.none Option.none (some endLabel) Option.none Option.none

/-- `CodeGenerator3AC.visit_continue`: same sentinel degradation. -/
def visitContinue (g : Gen) : Gen :=
  match g.continue_stack with
  | [] => g.emit ("goto") Option.none Option.none (some ("__INVALID_CONTINUE__")) Option.none Option.none
  | contLabel :: _ =>
    g.emit ("goto") Option.none Option.none (some contLabel) Option.none Option.none

/-- The parameter-listing loop of `visit_functiondef`: one documentation
`param` instruction per formal parameter. -/
def emitParamDecls : List Arg → Gen → Gen
  | [], g => g
  | a :: rest, g =>
    emitParamDecls rest
      (g.emit ("param") (some a.name) Option.none Option.none Option.none (some ("func param")))

/-- The argument-push loop of `visit_call`: one `param` instruction per
already-evaluated argument place. -/
def emitArgPushes : List String → Gen → Gen
  | [], g => g
  | p :: rest, g =>
    emitArgPushes rest (g.emit ("param") (some p) Option.none Option.none Option.none Option.none)

/-- The `node.op.replace("=", "")` of `visit_augassign`: drop every `=`
(single-character pattern, empty replacement). -/
def stripEq (op : String) : String :=
  String.mk (op.toList.filter (fun c => c ≠ '='))

/-- The place of a `Num` leaf: the source computes `repr(node.value)` on
the `float` the lexer stored.  Machine floating point is outside this
embedding (and no verified property below generates code from a numeric
literal), so the scanned lexeme stands in for its float repr. -/
def reprFloat (lexeme : String) : String := lexeme

/-- The place of a `Str` leaf: the source computes `repr(node.value)`;
modelled as simple single-quoting (Python's escape refinements are not
needed by any property below, none of which generates code from a string
literal). -/
def reprStr (s : String) : String :=
  String.append (String.append (String.mk [squoteC]) s) (String.mk [squoteC])

mutual

/-- `CodeGenerator3AC.visit_stmt`. -/
def visitStmt : Stmt → Gen → Except GenErr Gen
  | .exprStmt e, g => do
    let (_, g) ← visitExpr e g
    .ok g
  | .assign targets value, g => do
    let (valuePlace, g) ← visitExpr value g
    match targets with
    | [] => .ok g
    | target :: _ => do
      let (targetPlace, g) ← getLvaluePlace target g
      .ok (g.emit ("=") (some valuePlace) Option.none (some targetPlace) Option.none Option.none)
  | .augAssign target op value, g => do
    let (targetPlace, g) ← getLvaluePlace target g
    let (rightPlace, g) ← visitExpr value g
    let opBase := stripEq op
    let (t, g) := g.new_temp
    let g := g.emit opBase (some targetPlace) (some rightPlace) (some t) Option.none Option.none
    .ok (g.emit ("=") (some t) Option.none (some targetPlace) Option.none Option.none)
  | .returnStmt v, g =>
    match v with
    | some e => do
      let (p, g) ← visitExpr e g
      .ok (g.emit ("return") (some p) Option.none Option.none Option.none Option.none)
    | Option.none =>
      .ok (g.emit ("return") Option.none Option.none Option.none Option.none Option.none)
  | .passStmt, g => .ok g
  | .breakStmt, g => .ok (visitBreak g)
  | .continueStmt, g => .ok (visitContinue g)
  | .ifStmt test body orelse, g => do
    let (condPlace, g) ← visitExpr test g
    let (labelElse, g) := g.new_label ("L_else_")
    let (labelEnd, g) := g.new_label ("L_end_if_")
    let g := g.emit ("if_false_goto") (some condPlace) Option.none (some labelElse)
               Option.none Option.none
    let g ← visitStmts body g
    let g :=
      if orelse.isEmpty then g
      else g.emit ("goto") Option.none Option.none (some labelEnd) Option.none Option.none
    let g := g.emitLabel labelElse
    let g ← visitStmts orelse g
    .ok (if orelse.isEmpty then g else g.emitLabel labelEnd)
  | .whileStmt test body _orelse, g => do
    let (labelStart, g) := g.new_label ("L_while_start_")
    let (labelEnd, g) := g.new_label ("L_while_end_")
    let g := { g with continue_stack := labelStart :: g.continue_stack,
                      break_stack := labelEnd :: g.break_stack }
    let g := g.emitLabel labelStart
    let (condPlace, g) ← visitExpr test g
    let g := g.emit ("if_false_goto") (some condPlace) Option.none (some labelEnd)
               Option.none Option.none
    let g ← visitStmts body g
    let g := g.emit ("goto") Option.none Option.none (some labelStart) Option.none Option.none
    let g := g.emitLabel labelEnd
    .ok { g with continue_stack := g.continue_stack.tail, break_stack := g.break_stack.tail }
  | .forStmt target iterE body _orelse, g => do
    let (iterPlace, g) ← visitExpr iterE g
    let (idx, g) := g.new_temp
    let (length, g) := g.new_temp
    let g := g.emit ("=") (some ("0")) Option.none (some idx) Option.none (some ("for index"))
    let g := g.emit ("len") (some iterPlace) Option.none (some length) Option.none
               (some ("len(iter)"))
    let (labelStart, g) := g.new_label ("L_for_start_")
    let (labelEnd, g) := g.new_label ("L_for_end_")
    let g := { g with continue_stack := labelStart :: g.continue_stack,
                      break_stack := labelEnd :: g.break_stack }
    let g := g.emitLabel labelStart
    let (cond, g) := g.new_temp
    let g := g.emit ("<") (some idx) (some length) (some cond) Option.none Option.none
    let g := g.emit ("if_false_goto") (some cond) Option.none (some labelEnd)
               Option.none Option.none
    let (valueTemp, g) := g.new_temp
    let g := g.emit ("load_index") (some iterPlace) (some idx) (some valueTemp)
               Option.none Option.none
    let (targetPlace, g) ← getLvaluePlace target g
    let g := g.emit ("=") (some valueTemp) Option.none (some targetPlace) Option.none Option.none
    let g ← visitStmts body g
    let (t, g) := g.new_temp
    let g := g.emit ("+") (some idx) (some ("1")) (some t) Option.none Option.none
    let g := g.emit ("=") (some t) Option.none (some idx) Option.none Option.none
    let g := g.emit ("goto") Option.none Option.none (some labelStart) Option.none Option.none
    let g := g.emitLabel labelEnd
    .ok { g with continue_stack := g.continue_stack.tail, break_stack := g.break_stack.tail }
  | .functionDef name args body _returns _decorators, g => do
    let g := g.emit ("func_begin") Option.none Option.none (some name) Option.none Option.none
    let g := emitParamDecls args.args g
    let g ← visitStmts body g
    let g := g.emit ("return") Option.none Option.none Option.none Option.none
               (some ("implicit return"))
    .ok (g.emit ("func_end") Option.none Option.none (some name) Option.none Option.none)

/-- The statement-sequence loops of `visit_program` and every compound
visitor. -/
def visitStmts : List Stmt → Gen → Except GenErr Gen
  | [], g => .ok g
  | s :: rest, g => do
    let g ← visitStmt s g
    visitStmts rest g

/-- `CodeGenerator3AC.visit_expr`: terminal expressions resolve to their
textual place without emitting; compound ones emit into fresh
temporaries. -/
def visitExpr : Expr → Gen → Except GenErr (String × Gen)
  | .name id, g => .ok (id, g)
  | .num v, g => .ok (reprFloat v, g)
  | .strLit v, g => .ok (reprStr v, g)
  | .boolLit b, g => .ok (if b then ("True" : String) else ("False" : String), g)
  | .noneLiteral, g => .ok (("None" : String), g)
  | .binOp l op r, g => do
    let (lp, g) ← visitExpr l g
    let (rp, g) ← visitExpr r g
    let (res, g) := g.new_temp
    .ok (res, g.emit op (some lp) (some rp) (some res) Option.none Option.none)
  | .unaryOp op operand, g => do
    let (p, g) ← visitExpr operand g
    let (res, g) := g.new_temp
    .ok (res, g.emit op (some p) Option.none (some res) Option.none Option.none)
  | .boolOp op values, g =>
    match values with
    | [] => .ok (("False" : String), g)
    | v :: rest => do
      let (temp, g) ← visitExpr v g
      boolChainLoop rest op temp g
  | .compare left ops comps, g => do
    let (leftPlace, g) ← visitExpr left g
    if ops.isEmpty ∨ comps.isEmpty then .ok (leftPlace, g)
    else do
      let (tempOpt, g) ← compareLoop ops comps leftPlace Option.none g
      .ok (tempOpt.getD leftPlace, g)
  | .call func args _kws, g => do
    let (argPlaces, g) ← visitExprList args g
    let g := emitArgPushes argPlaces g
    let (funcPlace, g) ← visitExpr func g
    let (res, g) := g.new_temp
    .ok (res, g.emit ("call") (some funcPlace) (some (toString argPlaces.length)) (some res)
          Option.none Option.none)
  | .attribute value attr, g => do
    let (vp, g) ← visitExpr value g
    let (res, g) := g.new_temp
    .ok (res, g.emit ("getattr") (some vp) (some attr) (some res) Option.none Option.none)
  | .subscript value slice, g => do
    let (vp, g) ← visitExpr value g
    match slice with
    | .mk (some startE) Option.none Option.none => do
      let (ip, g) ← visitExpr startE g
      let (res, g) := g.new_temp
      .ok (res, g.emit ("load_index") (some vp) (some ip) (some res) Option.none Option.none)
    | .mk startO stopO stepO => do
      let (startP, g) ← visitOptExpr startO g
      let (stopP, g) ← visitOptExpr stopO g
      let (stepP, g) ← visitOptExpr stepO g
      let (res, g) := g.new_temp
      let descr := "(" ++ startP ++ "," ++ stopP ++ "," ++ stepP ++ ")"
      .ok (res, g.emit ("slice") (some vp) (some descr) (some res) Option.none Option.none)

/-- The `visit_expr(...) if ... is not None else "None"` pattern of the
slice branches. -/
def visitOptExpr : Option Expr → Gen → Except GenErr (String × Gen)
  | some e, g => visitExpr e g
  | Option.none, g => .ok (("None" : String), g)

/-- The argument-evaluation loop of `visit_call`. -/
def visitExprList : List Expr → Gen → Except GenErr (List String × Gen)
  | [], g => .ok ([], g)
  | e :: rest, g => do
    let (p, g) ← visitExpr e g
    let (ps, g) ← visitExprList rest g
    .ok (p :: ps, g)

/-- The combining loop of `visit_boolop` over `values[1:]` (no
short-circuiting: one combining instruction per remaining operand). -/
def boolChainLoop : List Expr → String → String → Gen → Except GenErr (String × Gen)
  | [], _, temp, g => .ok (temp, g)
  | e :: rest, op, temp, g => do
    let (right, g) ← visitExpr e g
    let (t, g) := g.new_temp
    let g := g.emit op (some temp) (some right) (some t) Option.none Option.none
    boolChainLoop rest op t g

/-- The pairwise-reduction loop of `visit_compare` over
`zip(node.ops, node.comparators)`. -/
def compareLoop : List String → List Expr → String → Option String → Gen →
    Except GenErr (Option String × Gen)
  | op :: ops, right :: comps, currentLeft, _, g => do
    let (rightPlace, g) ← visitExpr right g
    let (t, g) := g.new_temp
    let g := g.emit op (some currentLeft) (some rightPlace) (some t) Option.none Option.none
    compareLoop ops comps t (some t) g
  | _, _, _, temp, g => .ok (temp, g)

/-- `CodeGenerator3AC.get_lvalue_place`: names are their own place;
attribute and subscript targets resolve to synthetic textual places;
everything else raises. -/
def getLvaluePlace : Expr → Gen → Except GenErr (String × Gen)
  | .name id, g => .ok (id, g)
  | .attribute value attr, g => do
    let (base, g) ← visitExpr value g
    .ok (String.append (String.append base (".")) attr, g)
  | .subscript value slice, g => do
    let (base, g) ← visitExpr value g
    match slice with
    | .mk (some startE) Option.none Option.none => do
      let (ip, g) ← visitExpr startE g
      .ok (base ++ "[" ++ ip ++ "]", g)
    | .mk startO stopO stepO => do
      let (startP, g) ← visitOptExpr startO g
      let (stopP, g) ← visitOptExpr stopO g
      let (stepP, g) ← visitOptExpr stepO g
      .ok (base ++ "[" ++ startP ++ ":" ++ stopP ++ ":" ++ stepP ++ "]", g)
  | _, _g => .error .lvalueUnsupported

end

/-- `CodeGenerator3AC.generate` / `generate_3ac`: run the visitors from a
fresh generator and return the instruction list. -/
def generate3AC (p : Program) : Except GenErr (List TACInstr) :=
  match visitStmts p.body Gen.init with
  | .ok g => .ok g.code
  | .error e => .error e

/-- Everything a full lex→parse→generate run can raise. -/
inductive CompErr where
  | lexE (e : LexError)
  | parseE (e : PError)
  | genE (e : GenErr)
  deriving DecidableEq, Repr

/-- The full pipeline of the driver: tokenize, parse, generate. -/
def compileSrc (src : String) : Except CompErr (List TACInstr) :=
  match tokenize src with
  | .error e => .error (.lexE e)
  | .ok toks =>
    match parseTokens toks with
    | .error e => .error (.parseE e)
    | .ok p =>
      match generate3AC p with
      | .error e => .error (.genE e)
      | .ok code => .ok code

/-- Number of tokens of a given kind in a token stream (used to state the
INDENT/DEDENT balance property). -/
def countTok (ty : TokType) : List Token → Nat
  | [] => 0
  | t :: ts => (if t.type = ty then 1 else 0) + countTok ty ts

/-! ## Concrete evaluation lemmas

Each pipeline stage is evaluated separately on literal inputs (literal
source strings, literal token lists, literal trees), and the claim
theorems compose the stages; this keeps every kernel reduction on fully
concrete data. -/

/-- Tokens of `x += y`. -/
theorem tok_aug : tokenize ("x += y\n") = .ok
    [⟨.NAME, .str ("x"), 1, 1⟩, ⟨.PLUSEQUAL, .str ("+="), 1, 3⟩, ⟨.NAME, .str ("y"), 1, 6⟩,
     ⟨.NEWLINE, .str ("\n"), 1, 7⟩, ⟨.ENDMARKER, .none, 2, 1⟩] := rfl

/-- Parse of `x += y`. -/
theorem parse_aug : parseTokens
    [⟨.NAME, .str ("x"), 1, 1⟩, ⟨.PLUSEQUAL, .str ("+="), 1, 3⟩, ⟨.NAME, .str ("y"), 1, 6⟩,
     ⟨.NEWLINE, .str ("\n"), 1, 7⟩, ⟨.ENDMARKER, .none, 2, 1⟩] = .ok
    ⟨[.augAssign (.name ("x")) ("+=") (.name ("y"))]⟩ := rfl

/-- Generation for `x += y`: exactly two instructions. -/
theorem gen_aug : generate3AC ⟨[.augAssign (.name ("x")) ("+=") (.name ("y"))]⟩ = .ok
    [⟨"+", some ("x"), some ("y"), some ("t1"), Option.none, Option.none⟩,
     ⟨"=", some ("t1"), Option.none, some ("x"), Option.none, Option.none⟩] := rfl

/-- Tokens of `a < b < c`. -/
theorem tok_cmp : tokenize ("a < b < c") = .ok
    [⟨.NAME, .str ("a"), 1, 1⟩, ⟨.LESS, .str ("<"), 1, 3⟩, ⟨.NAME, .str ("b"), 1, 5⟩,
     ⟨.LESS, .str ("<"), 1, 7⟩, ⟨.NAME, .str ("c"), 1, 9⟩,
     ⟨.NEWLINE, .str ("\n"), 1, 10⟩, ⟨.ENDMARKER, .none, 1, 10⟩] := rfl

/-- Parse of `a < b < c`: one flat `Compare` node. -/
theorem parse_cmp : parseTokens
    [⟨.NAME, .str ("a"), 1, 1⟩, ⟨.LESS, .str ("<"), 1, 3⟩, ⟨.NAME, .str ("b"), 1, 5⟩,
     ⟨.LESS, .str ("<"), 1, 7⟩, ⟨.NAME, .str ("c"), 1, 9⟩,
     ⟨.NEWLINE, .str ("\n"), 1, 10⟩, ⟨.ENDMARKER, .none, 1, 10⟩] = .ok
    ⟨[.exprStmt (.compare (.name ("a")) ["<", "<"] [.name ("b"), .name ("c")])]⟩ := rfl

/-- Generation for `a < b < c`: two comparisons, left to right. -/
theorem gen_cmp : generate3AC
    ⟨[.exprStmt (.compare (.name ("a")) ["<", "<"] [.name ("b"), .name ("c")])]⟩ = .ok
    [⟨"<", some ("a"), some ("b"), some ("t1"), Option.none, Option.none⟩,
     ⟨"<", some ("t1"), some ("c"), some ("t2"), Option.none, Option.none⟩] := rfl

/-- Tokens of `a and b and c`. -/
theorem tok_and3 : tokenize ("a and b and c") = .ok
    [⟨.NAME, .str ("a"), 1, 1⟩, ⟨.NAME, .str ("and"), 1, 3⟩, ⟨.NAME, .str ("b"), 1, 7⟩,
     ⟨.NAME, .str ("and"), 1, 9⟩, ⟨.NAME, .str ("c"), 1, 13⟩,
     ⟨.NEWLINE, .str ("\n"), 1, 14⟩, ⟨.ENDMARKER, .none, 1, 14⟩] := rfl

/-- Parse of `a and b and c`: one flat three-operand `BoolOp`. -/
theorem parse_and3 : parseTokens
    [⟨.NAME, .str ("a"), 1, 1⟩, ⟨.NAME, .str ("and"), 1, 3⟩, ⟨.NAME, .str ("b"), 1, 7⟩,
     ⟨.NAME, .str ("and"), 1, 9⟩, ⟨.NAME, .str ("c"), 1, 13⟩,
     ⟨.NEWLINE, .str ("\n"), 1, 14⟩, ⟨.ENDMARKER, .none, 1, 14⟩] = .ok
    ⟨[.exprStmt (.boolOp ("and") [.name ("a"), .name ("b"), .name ("c")])]⟩ := rfl

/-- Generation for `a and b and c`: exactly two combining instructions. -/
theorem gen_and3 : generate3AC
    ⟨[.exprStmt (.boolOp ("and") [.name ("a"), .name ("b"), .name ("c")])]⟩ = .ok
    [⟨"and", some ("a"), some ("b"), some ("t1"), Option.none, Option.none⟩,
     ⟨"and", some ("t1"), some ("c"), some ("t2"), Option.none, Option.none⟩] := rfl

/-- Tokens of the two-parameter function definition. -/
theorem tok_fdef : tokenize ("def f(a, b):\n    return a + b\n") = .ok
    [⟨.NAME, .str ("def"), 1, 1⟩, ⟨.NAME, .str ("f"), 1, 5⟩, ⟨.LPAREN, .str ("("), 1, 6⟩,
     ⟨.NAME, .str ("a"), 1, 7⟩, ⟨.COMMA, .str (","), 1, 8⟩, ⟨.NAME, .str ("b"), 1, 10⟩,
     ⟨.RPAREN, .str (")"), 1, 11⟩, ⟨.COLON, .str (":"), 1, 12⟩, ⟨.NEWLINE, .str ("\n"), 1, 13⟩,
     ⟨.INDENT, .none, 2, 1⟩, ⟨.NAME, .str ("return"), 2, 5⟩, ⟨.NAME, .str ("a"), 2, 12⟩,
     ⟨.PLUS, .str ("+"), 2, 14⟩, ⟨.NAME, .str ("b"), 2, 16⟩, ⟨.NEWLINE, .str ("\n"), 2, 17⟩,
     ⟨.DEDENT, .none, 3, 1⟩, ⟨.ENDMARKER, .none, 3, 1⟩] := rfl

/-- Parse of the two-parameter function definition. -/
theorem parse_fdef : parseTokens
    [⟨.NAME, .str ("def"), 1, 1⟩, ⟨.NAME, .str ("f"), 1, 5⟩, ⟨.LPAREN, .str ("("), 1, 6⟩,
     ⟨.NAME, .str ("a"), 1, 7⟩, ⟨.COMMA, .str (","), 1, 8⟩, ⟨.NAME, .str ("b"), 1, 10⟩,
     ⟨.RPAREN, .str (")"), 1, 11⟩, ⟨.COLON, .str (":"), 1, 12⟩, ⟨.NEWLINE, .str ("\n"), 1, 13⟩,
     ⟨.INDENT, .none, 2, 1⟩, ⟨.NAME, .str ("return"), 2, 5⟩, ⟨.NAME, .str ("a"), 2, 12⟩,
     ⟨.PLUS, .str ("+"), 2, 14⟩, ⟨.NAME, .str ("b"), 2, 16⟩, ⟨.NEWLINE, .str ("\n"), 2, 17⟩,
     ⟨.DEDENT, .none, 3, 1⟩, ⟨.ENDMARKER, .none, 3, 1⟩] = .ok
    ⟨[.functionDef ("f") ⟨[⟨"a", Option.none, Option.none⟩, ⟨"b", Option.none, Option.none⟩]⟩
       [.returnStmt (some (.binOp (.name ("a")) ("+") (.name ("b"))))] Option.none []]⟩ := rfl

/-- Generation for the two-parameter function definition. -/
theorem gen_fdef : generate3AC
    ⟨[.functionDef ("f") ⟨[⟨"a", Option.none, Option.none⟩, ⟨"b", Option.none, Option.none⟩]⟩
       [.returnStmt (some (.binOp (.name ("a")) ("+") (.name ("b"))))] Option.none []]⟩ = .ok
    [⟨"func_begin", Option.none, Option.none, some ("f"), Option.none, Option.none⟩,
     ⟨"param", some ("a"), Option.none, Option.none, Option.none, some ("func param")⟩,
     ⟨"param", some ("b"), Option.none, Option.none, Option.none, some ("func param")⟩,
     ⟨"+", some ("a"), some ("b"), some ("t1"), Option.none, Option.none⟩,
     ⟨"return", some ("t1"), Option.none, Option.none, Option.none, Option.none⟩,
     ⟨"return", Option.none, Option.none, Option.none, Option.none, some ("implicit return")⟩,
     ⟨"func_end", Option.none, Option.none, some ("f"), Option.none, Option.none⟩] := rfl

/-- Tokens of the duplicate-parameter definition `def f(a, a): pass`. -/
theorem tok_dup : tokenize ("def f(a, a): pass") = .ok
    [⟨.NAME, .str ("def"), 1, 1⟩, ⟨.NAME, .str ("f"), 1, 5⟩, ⟨.LPAREN, .str ("("), 1, 6⟩,
     ⟨.NAME, .str ("a"), 1, 7⟩, ⟨.COMMA, .str (","), 1, 8⟩, ⟨.NAME, .str ("a"), 1, 10⟩,
     ⟨.RPAREN, .str (")"), 1, 11⟩, ⟨.COLON, .str (":"), 1, 12⟩, ⟨.NAME, .str ("pass"), 1, 14⟩,
     ⟨.NEWLINE, .str ("\n"), 1, 18⟩, ⟨.ENDMARKER, .none, 1, 18⟩] := rfl

/-- Parsing the duplicate-parameter definition faults with the
redeclaration error in scope `func f`. -/
theorem parse_dup : parseTokens
    [⟨.NAME, .str ("def"), 1, 1⟩, ⟨.NAME, .str ("f"), 1, 5⟩, ⟨.LPAREN, .str ("("), 1, 6⟩,
     ⟨.NAME, .str ("a"), 1, 7⟩, ⟨.COMMA, .str (","), 1, 8⟩, ⟨.NAME, .str ("a"), 1, 10⟩,
     ⟨.RPAREN, .str (")"), 1, 11⟩, ⟨.COLON, .str (":"), 1, 12⟩, ⟨.NAME, .str ("pass"), 1, 14⟩,
     ⟨.NEWLINE, .str ("\n"), 1, 18⟩, ⟨.ENDMARKER, .none, 1, 18⟩] =
    .error (.redeclared ("func f") ("a")) := rfl

/-- Tokens of the shadowing program (`x` global, then `x` inside `f`). -/
theorem tok_shadow : tokenize ("x = 1\ndef f():\n    x = 2\n") = .ok
    [⟨.NAME, .str ("x"), 1, 1⟩, ⟨.EQUAL, .str ("="), 1, 3⟩, ⟨.NUMBER, .num ("1"), 1, 5⟩,
     ⟨.NEWLINE, .str ("\n"), 1, 6⟩, ⟨.NAME, .str ("def"), 2, 1⟩, ⟨.NAME, .str ("f"), 2, 5⟩,
     ⟨.LPAREN, .str ("("), 2, 6⟩, ⟨.RPAREN, .str (")"), 2, 7⟩, ⟨.COLON, .str (":"), 2, 8⟩,
     ⟨.NEWLINE, .str ("\n"), 2, 9⟩, ⟨.INDENT, .none, 3, 1⟩, ⟨.NAME, .str ("x"), 3, 5⟩,
     ⟨.EQUAL, .str ("="), 3, 7⟩, ⟨.NUMBER, .num ("2"), 3, 9⟩, ⟨.NEWLINE, .str ("\n"), 3, 10⟩,
     ⟨.DEDENT, .none, 4, 1⟩, ⟨.ENDMARKER, .none, 4, 1⟩] := rfl

/-- The shadowing program parses without fault: redefining `x` inside
`func f` while `x` exists only in the enclosing global scope. -/
theorem parse_shadow : parseTokens
    [⟨.NAME, .str ("x"), 1, 1⟩, ⟨.EQUAL, .str ("="), 1, 3⟩, ⟨.NUMBER, .num ("1"), 1, 5⟩,
     ⟨.NEWLINE, .str ("\n"), 1, 6⟩, ⟨.NAME, .str ("def"), 2, 1⟩, ⟨.NAME, .str ("f"), 2, 5⟩,
     ⟨.LPAREN, .str ("("), 2, 6⟩, ⟨.RPAREN, .str (")"), 2, 7⟩, ⟨.COLON, .str (":"), 2, 8⟩,
     ⟨.NEWLINE, .str ("\n"), 2, 9⟩, ⟨.INDENT, .none, 3, 1⟩, ⟨.NAME, .str ("x"), 3, 5⟩,
     ⟨.EQUAL, .str ("="), 3, 7⟩, ⟨.NUMBER, .num ("2"), 3, 9⟩, ⟨.NEWLINE, .str ("\n"), 3, 10⟩,
     ⟨.DEDENT, .none, 4, 1⟩, ⟨.ENDMARKER, .none, 4, 1⟩] = .ok
    ⟨[.assign [.name ("x")] (.num ("1")),
      .functionDef ("f") ⟨[]⟩ [.assign [.name ("x")] (.num ("2"))] Option.none []]⟩ := rfl

/-- Tokens of `break` at top level followed by an assignment. -/
theorem tok_brk : tokenize ("break\nx = y\n") = .ok
    [⟨.NAME, .str ("break"), 1, 1⟩, ⟨.NEWLINE, .str ("\n"), 1, 6⟩, ⟨.NAME, .str ("x"), 2, 1⟩,
     ⟨.EQUAL, .str ("="), 2, 3⟩, ⟨.NAME, .str ("y"), 2, 5⟩, ⟨.NEWLINE, .str ("\n"), 2, 6⟩,
     ⟨.ENDMARKER, .none, 3, 1⟩] := rfl

/-- Parse of the top-level `break` program. -/
theorem parse_brk : parseTokens
    [⟨.NAME, .str ("break"), 1, 1⟩, ⟨.NEWLINE, .str ("\n"), 1, 6⟩, ⟨.NAME, .str ("x"), 2, 1⟩,
     ⟨.EQUAL, .str ("="), 2, 3⟩, ⟨.NAME, .str ("y"), 2, 5⟩, ⟨.NEWLINE, .str ("\n"), 2, 6⟩,
     ⟨.ENDMARKER, .none, 3, 1⟩] = .ok
    ⟨[.breakStmt, .assign [.name ("x")] (.name ("y"))]⟩ := rfl

/-- Generation for the top-level `break` program: the sentinel jump, and
generation of the rest continues. -/
theorem gen_brk : generate3AC ⟨[.breakStmt, .assign [.name ("x")] (.name ("y"))]⟩ = .ok
    [⟨"goto", Option.none, Option.none, some ("__INVALID_BREAK__"), Option.none, Option.none⟩,
     ⟨"=", some ("y"), Option.none, some ("x"), Option.none, Option.none⟩] := rfl

/-- Tokens of a top-level `continue`. -/
theorem tok_cont : tokenize ("continue\n") = .ok
    [⟨.NAME, .str ("continue"), 1, 1⟩, ⟨.NEWLINE, .str ("\n"), 1, 9⟩,
     ⟨.ENDMARKER, .none, 2, 1⟩] := rfl

/-- Parse of the top-level `continue` program. -/
theorem parse_cont : parseTokens
    [⟨.NAME, .str ("continue"), 1, 1⟩, ⟨.NEWLINE, .str ("\n"), 1, 9⟩,
     ⟨.ENDMARKER, .none, 2, 1⟩] = .ok ⟨[.continueStmt]⟩ := rfl

/-- Generation for the top-level `continue` program. -/
theorem gen_cont : generate3AC ⟨[.continueStmt]⟩ = .ok
    [⟨"goto", Option.none, Option.none, some ("__INVALID_CONTINUE__"),
      Option.none, Option.none⟩] := rfl

/-- Tokens of the double assignment to the same variable. -/
theorem tok_reassign : tokenize ("x = 1\nx = 2\n") = .ok
    [⟨.NAME, .str ("x"), 1, 1⟩, ⟨.EQUAL, .str ("="), 1, 3⟩, ⟨.NUMBER, .num ("1"), 1, 5⟩,
     ⟨.NEWLINE, .str ("\n"), 1, 6⟩, ⟨.NAME, .str ("x"), 2, 1⟩, ⟨.EQUAL, .str ("="), 2, 3⟩,
     ⟨.NUMBER, .num ("2"), 2, 5⟩, ⟨.NEWLINE, .str ("\n"), 2, 6⟩,
     ⟨.ENDMARKER, .none, 3, 1⟩] := rfl

/-- The double assignment parses without fault. -/
theorem parse_reassign : parseTokens
    [⟨.NAME, .str ("x"), 1, 1⟩, ⟨.EQUAL, .str ("="), 1, 3⟩, ⟨.NUMBER, .num ("1"), 1, 5⟩,
     ⟨.NEWLINE, .str ("\n"), 1, 6⟩, ⟨.NAME, .str ("x"), 2, 1⟩, ⟨.EQUAL, .str ("="), 2, 3⟩,
     ⟨.NUMBER, .num ("2"), 2, 5⟩, ⟨.NEWLINE, .str ("\n"), 2, 6⟩,
     ⟨.ENDMARKER, .none, 3, 1⟩] = .ok
    ⟨[.assign [.name ("x")] (.num ("1")), .assign [.name ("x")] (.num ("2"))]⟩ := rfl

/-- Tokens of two same-named function definitions in one scope. -/
theorem tok_redef : tokenize ("def g(): pass\ndef g(): pass\n") = .ok
    [⟨.NAME, .str ("def"), 1, 1⟩, ⟨.NAME, .str ("g"), 1, 5⟩, ⟨.LPAREN, .str ("("), 1, 6⟩,
     ⟨.RPAREN, .str (")"), 1, 7⟩, ⟨.COLON, .str (":"), 1, 8⟩, ⟨.NAME, .str ("pass"), 1, 10⟩,
     ⟨.NEWLINE, .str ("\n"), 1, 14⟩, ⟨.NAME, .str ("def"), 2, 1⟩, ⟨.NAME, .str ("g"), 2, 5⟩,
     ⟨.LPAREN, .str ("("), 2, 6⟩, ⟨.RPAREN, .str (")"), 2, 7⟩, ⟨.COLON, .str (":"), 2, 8⟩,
     ⟨.NAME, .str ("pass"), 2, 10⟩, ⟨.NEWLINE, .str ("\n"), 2, 14⟩,
     ⟨.ENDMARKER, .none, 3, 1⟩] := rfl

/-- The double same-scope function definition parses without fault. -/
theorem parse_redef : parseTokens
    [⟨.NAME, .str ("def"), 1, 1⟩, ⟨.NAME, .str ("g"), 1, 5⟩, ⟨.LPAREN, .str ("("), 1, 6⟩,
     ⟨.RPAREN, .str (")"), 1, 7⟩, ⟨.COLON, .str (":"), 1, 8⟩, ⟨.NAME, .str ("pass"), 1, 10⟩,
     ⟨.NEWLINE, .str ("\n"), 1, 14⟩, ⟨.NAME, .str ("def"), 2, 1⟩, ⟨.NAME, .str ("g"), 2, 5⟩,
     ⟨.LPAREN, .str ("("), 2, 6⟩, ⟨.RPAREN, .str (")"), 2, 7⟩, ⟨.COLON, .str (":"), 2, 8⟩,
     ⟨.NAME, .str ("pass"), 2, 10⟩, ⟨.NEWLINE, .str ("\n"), 2, 14⟩,
     ⟨.ENDMARKER, .none, 3, 1⟩] = .ok
    ⟨[.functionDef ("g") ⟨[]⟩ [.passStmt] Option.none [],
      .functionDef ("g") ⟨[]⟩ [.passStmt] Option.none []]⟩ := rfl

/-! ## Claim theorems -/

/-- C1: for an augmented assignment with a plain-name target and a
plain-name (already-evaluated) right-hand side, `visit_augassign` emits
exactly TWO instructions — the combine into a fresh temporary and the
move back — with no separate instruction reading the current target
value, contrary to the claim and to the visitor's own docstring (which
lists the three-instruction decomposition `t1 = target;
t2 = t1 op value; target = t2`).  Stated generally over targets, values,
operators and generator states, and evaluated on the failing input
`x += y`. -/
theorem augassign_lowering_two_instructions :
    (∀ (x y op : String) (g : Gen),
      visitStmt (.augAssign (.name x) op (.name y)) g =
        .ok { g with
              temp_count := g.temp_count + 1,
              code := (g.code ++
                [⟨stripEq op, some x, some y,
                  some (String.append ("t") (toString (g.temp_count + 1))),
                  Option.none, Option.none⟩]) ++
                [⟨"=", some (String.append ("t") (toString (g.temp_count + 1))),
                  Option.none, some x, Option.none, Option.none⟩] })
    ∧ compileSrc ("x += y\n") = .ok
        [⟨"+", some ("x"), some ("y"), some ("t1"), Option.none, Option.none⟩,
         ⟨"=", some ("t1"), Option.none, some ("x"), Option.none, Option.none⟩] := by
  constructor
  · intro x y op g
    rfl
  · simp only [compileSrc, tok_aug, parse_aug, gen_aug]

/-- C2 counterexample: lexing `1.a` — the number `1.` immediately
followed by a letter — succeeds (NUMBER `1.`, then NAME `a`), with no
lexical fault: the lexer accepts a bare trailing dot, exactly as its own
docstring (`5.`) documents. -/
theorem number_trailing_dot_letter_lexes_ok :
    tokenize ("1.a") = .ok
      [⟨.NUMBER, .num ("1."), 1, 1⟩, ⟨.NAME, .str ("a"), 1, 3⟩,
       ⟨.NEWLINE, .str ("\n"), 1, 4⟩, ⟨.ENDMARKER, .none, 1, 4⟩] := rfl

/-- C2 amended: `1.` immediately followed by the letter `e` or `E`
produces a lexical fault (malformed exponent) carrying the offending
line and column; followed by any other letter the input tokenizes
successfully as the number `1.` and an identifier. -/
theorem number_trailing_dot_exponent_fault :
    tokenize ("1.e") = .error ⟨.invalidExponent, 1, 4⟩
    ∧ tokenize ("1.E") = .error ⟨.invalidExponent, 1, 4⟩
    ∧ tokenize ("1.x") = .ok
        [⟨.NUMBER, .num ("1."), 1, 1⟩, ⟨.NAME, .str ("x"), 1, 3⟩,
         ⟨.NEWLINE, .str ("\n"), 1, 4⟩, ⟨.ENDMARKER, .none, 1, 4⟩] :=
  ⟨rfl, rfl, rfl⟩

/-- C3: `a < b < c` parses into exactly one `Compare` node with left
operand `a`, operator list `["<", "<"]` and two comparators (no nested
binary tree), and lowers into exactly two comparison instructions
composed left-to-right (`t1 = a < b`, then `t2 = t1 < c`). -/
theorem chained_comparison_single_node_two_instructions :
    lexParse ("a < b < c") = .ok
      ⟨[.exprStmt (.compare (.name ("a")) ["<", "<"] [.name ("b"), .name ("c")])]⟩
    ∧ compileSrc ("a < b < c") = .ok
        [⟨"<", some ("a"), some ("b"), some ("t1"), Option.none, Option.none⟩,
         ⟨"<", some ("t1"), some ("c"), some ("t2"), Option.none, Option.none⟩] := by
  constructor
  · simp only [lexParse, tok_cmp, parse_cmp]
  · simp only [compileSrc, tok_cmp, parse_cmp, gen_cmp]

/-- C4: `a and b and c` parses into exactly one flat `BoolOp` node with
operator `and` and three operands (not nested two-element nodes), and
lowers without short-circuiting into exactly two combining instructions;
in general, the combining loop over the operands after the first always
succeeds and emits exactly one instruction per remaining operand (n-1
for an n-operand chain of name operands), evaluating every operand
unconditionally in order. -/
theorem boolop_flat_chain_n_minus_one_instructions :
    (lexParse ("a and b and c") = .ok
      ⟨[.exprStmt (.boolOp ("and") [.name ("a"), .name ("b"), .name ("c")])]⟩
    ∧ compileSrc ("a and b and c") = .ok
        [⟨"and", some ("a"), some ("b"), some ("t1"), Option.none, Option.none⟩,
         ⟨"and", some ("t1"), some ("c"), some ("t2"), Option.none, Option.none⟩])
    ∧ ∀ (op temp : String) (ids : List String) (g : Gen),
        ∃ r, boolChainLoop (ids.map Expr.name) op temp g = .ok r
          ∧ r.2.code.length = g.code.length + ids.length := by
  refine ⟨⟨?_, ?_⟩, ?_⟩
  · simp only [lexParse, tok_and3, parse_and3]
  · simp only [compileSrc, tok_and3, parse_and3, gen_and3]
  · intro op temp ids g
    induction ids generalizing temp g with
    | nil => exact ⟨(temp, g), rfl, by simp⟩
    | cons id rest ih =>
      obtain ⟨r, hr, hlen⟩ := ih
        (String.append ("t") (toString (g.temp_count + 1)))
        (Gen.emit { g with temp_count := g.temp_count + 1 } op (some temp) (some id)
          (some (String.append ("t") (toString (g.temp_count + 1)))) Option.none Option.none)
      refine ⟨r, hr, ?_⟩
      rw [hlen]
      simp [Gen.emit]
      omega

/-- C5: generating `def f(a, b):\n    return a + b\n` produces, in
order: the function-begin marker, parameter declarations for `a` then
`b`, one addition into a temporary, the explicit return carrying that
temporary, the appended implicit value-less return, and the function-end
marker — the implicit return is appended even though the body already
ends in an explicit return. -/
theorem functiondef_implicit_return_appended :
    compileSrc ("def f(a, b):\n    return a + b\n") = .ok
      [⟨"func_begin", Option.none, Option.none, some ("f"), Option.none, Option.none⟩,
       ⟨"param", some ("a"), Option.none, Option.none, Option.none, some ("func param")⟩,
       ⟨"param", some ("b"), Option.none, Option.none, Option.none, some ("func param")⟩,
       ⟨"+", some ("a"), some ("b"), some ("t1"), Option.none, Option.none⟩,
       ⟨"return", some ("t1"), Option.none, Option.none, Option.none, Option.none⟩,
       ⟨"return", Option.none, Option.none, Option.none, Option.none, some ("implicit return")⟩,
       ⟨"func_end", Option.none, Option.none, some ("f"), Option.none, Option.none⟩] := by
  simp only [compileSrc, tok_fdef, parse_fdef, gen_fdef]

/-- C6: `define` succeeds exactly when the name is absent from the
current scope's own entry map, whatever the parent holds (parents are
never consulted); consequently `def f(a, a): pass` faults during parsing
with a redeclaration in scope `func f`, while defining `x` in a nested
function scope when `x` exists only in the enclosing global scope
parses without fault (shadowing). -/
theorem define_current_scope_only_param_redeclaration :
    (∀ (sn : String) (es : List (String × SymbolEntry)) (p : Option SymTable)
       (n k ty : String),
      ((SymTable.mk sn es p).define n k ty).isOk = (es.lookup n).isNone)
    ∧ lexParse ("def f(a, a): pass") = .error (.parseErr (.redeclared ("func f") ("a")))
    ∧ (lexParse ("x = 1\ndef f():\n    x = 2\n")).isOk = true := by
  refine ⟨?_, ?_, ?_⟩
  · intro sn es p n k ty
    unfold SymTable.define
    cases h : es.lookup n <;> simp [h, Except.isOk, Except.toBool]
  · simp only [lexParse, tok_dup, parse_dup]
  · simp only [lexParse, tok_shadow, parse_shadow]
    rfl

/-- C7: a `break` generated while the break-label stack is empty emits
exactly one unconditional jump to the sentinel `__INVALID_BREAK__`
placeholder (and `continue` likewise to `__INVALID_CONTINUE__`) without
failing, and generation of the rest of the program continues normally
(shown on `break` followed by an assignment). -/
theorem break_continue_outside_loop_sentinel :
    (∀ g : Gen, g.break_stack = [] →
      visitBreak g = g.emit ("goto") Option.none Option.none
        (some ("__INVALID_BREAK__")) Option.none Option.none)
    ∧ (∀ g : Gen, g.continue_stack = [] →
      visitContinue g = g.emit ("goto") Option.none Option.none
        (some ("__INVALID_CONTINUE__")) Option.none Option.none)
    ∧ compileSrc ("break\nx = y\n") = .ok
        [⟨"goto", Option.none, Option.none, some ("__INVALID_BREAK__"),
          Option.none, Option.none⟩,
         ⟨"=", some ("y"), Option.none, some ("x"), Option.none, Option.none⟩]
    ∧ compileSrc ("continue\n") = .ok
        [⟨"goto", Option.none, Option.none, some ("__INVALID_CONTINUE__"),
          Option.none, Option.none⟩] := by
  refine ⟨?_, ?_, ?_, ?_⟩
  · intro g h
    unfold visitBreak
    rw [h]
  · intro g h
    unfold visitContinue
    rw [h]
  · simp only [compileSrc, tok_brk, parse_brk, gen_brk]
  · simp only [compileSrc, tok_cont, parse_cont, gen_cont]

/-- Witness for C7 at the fresh generator state (whose loop-label stacks
are empty). -/
theorem break_continue_outside_loop_sentinel_witness :
    Gen.init.break_stack = [] ∧
    visitBreak Gen.init = Gen.init.emit ("goto") Option.none Option.none
      (some ("__INVALID_BREAK__")) Option.none Option.none ∧
    Gen.init.continue_stack = [] ∧
    visitContinue Gen.init = Gen.init.emit ("goto") Option.none Option.none
      (some ("__INVALID_CONTINUE__")) Option.none Option.none :=
  ⟨rfl, break_continue_outside_loop_sentinel.1 Gen.init rfl, rfl,
   break_continue_outside_loop_sentinel.2.1 Gen.init rfl⟩

/-- C9: the guarded registration used for assignment targets and for
function names never faults (it calls `define` only when the name is
locally absent), so assigning twice to the same variable and defining
two same-named functions in one scope both parse without fault; the
same-scope redeclaration fault can only come from the unguarded
parameter registration. -/
theorem redeclaration_only_from_duplicate_params :
    (∀ (t : SymTable) (n k ty : String), (SymTable.defineIfAbsent t n k ty).isOk = true)
    ∧ (lexParse ("x = 1\nx = 2\n")).isOk = true
    ∧ (lexParse ("def g(): pass\ndef g(): pass\n")).isOk = true := by
  refine ⟨?_, ?_, ?_⟩
  · intro t n k ty
    obtain ⟨sn, es, p⟩ := t
    unfold SymTable.defineIfAbsent SymTable.lookup_local SymTable.define
    cases h : es.lookup n <;> simp [h, SymTable.entries, Except.isOk, Except.toBool]
  · simp only [lexParse, tok_reassign, parse_reassign]
    rfl
  · simp only [lexParse, tok_redef, parse_redef]
    rfl

/-- C10: lexing the empty string succeeds with exactly one token, the
end-of-stream sentinel, at position (1,1) — no trailing NEWLINE is
synthesized and no INDENT/DEDENT is emitted; in general the epilogue
synthesizes no NEWLINE when no token was produced. -/
theorem empty_source_single_endmarker :
    tokenize ("") = .ok [⟨.ENDMARKER, .none, 1, 1⟩]
    ∧ ∀ st : LexState, lexFinish st [] =
        List.replicate (st.indent_stack.length - 1)
          ⟨.DEDENT, .none, st.cur.line, st.cur.col⟩
        ++ [⟨.ENDMARKER, .none, st.cur.line, st.cur.col⟩] :=
  ⟨rfl, fun _st => rfl⟩

/-! ## INDENT/DEDENT balance (C8) -/

/-- Counting distributes over append. -/
theorem countTok_append (ty : TokType) (a b : List Token) :
    countTok ty (a ++ b) = countTok ty a + countTok ty b := by
  induction a with
  | nil => simp [countTok]
  | cons t ts ih => simp [countTok, ih]; omega

/-- Counting a replicated token. -/
theorem countTok_replicate (ty : TokType) (k : Nat) (t : Token) :
    countTok ty (List.replicate k t) = if t.type = ty then k else 0 := by
  induction k with
  | zero => simp [countTok]
  | succ n ih =>
    simp only [List.replicate, countTok, ih]
    split <;> omega

/-- The dedent loop pops exactly the levels it emits DEDENTs for. -/
theorem popDedents_length (i : Nat) : ∀ stack : List Nat,
    (popDedents i stack).1.length + (popDedents i stack).2 = stack.length := by
  intro stack
  induction stack with
  | nil => rfl
  | cons top rest ih =>
    unfold popDedents
    by_cases hc : i < top
    · rw [if_pos hc]
      rcases hq : popDedents i rest with ⟨s, k⟩
      rw [hq] at ih
      simp at ih ⊢
      omega
    · rw [if_neg hc]
      simp

/-- Line-start handling balances emitted INDENT/DEDENT tokens against the
change in indentation-stack depth, and never empties a nonempty stack on
success. -/
theorem handleLineStart_spec (st st' : LexState) (ems : List Token)
    (h : handleLineStart st = .ok (st', ems)) :
    countTok .INDENT ems + st.indent_stack.length
      = countTok .DEDENT ems + st'.indent_stack.length
    ∧ (st.indent_stack ≠ [] → st'.indent_stack ≠ []) := by
  unfold handleLineStart at h
  rcases hscan : scanIndent 0 st.cur.rest st.cur.line st.cur.col with ⟨indent, cur⟩
  rw [hscan] at h
  simp only [] at h
  split at h
  · -- end of input after the indent: no tokens, stack unchanged
    injection h with h1
    injection h1 with h1 h2
    subst h1
    subst h2
    simp [countTok]
  · rename_i c _
    split at h
    · -- blank or comment-only line
      injection h with h1
      injection h1 with h1 h2
      subst h1
      subst h2
      simp [countTok]
    · split at h
      · exact absurd h (by simp)
      · rename_i prev restStack
        split at h
        · -- indent > prev: push, one INDENT
          injection h with h1
          injection h1 with h1 h2
          subst h1
          subst h2
          simp [countTok]
          omega
        · split at h
          · -- indent < prev: pop, k DEDENTs
            rcases hpop : popDedents indent st.indent_stack with ⟨stk, k⟩
            rw [hpop] at h
            have hlen := popDedents_length indent st.indent_stack
            rw [hpop] at hlen
            split at h
            · exact absurd h (by simp)
            · split at h
              · exact absurd h (by simp)
              · injection h with h1
                injection h1 with h1 h2
                subst h1
                subst h2
                rename_i top rest2 hstk
                simp only [countTok_replicate]
                simp at hlen ⊢
                refine ⟨by omega, fun _ => ?_⟩
                simp at rest2
                simp [rest2]
          · -- equal indent: nothing
            injection h with h1
            injection h1 with h1 h2
            subst h1
            subst h2
            simp [countTok]

/-- The number scanner only produces NUMBER tokens. -/
theorem scanNumber_type (cur : Cursor) (tok : Token) (cur' : Cursor)
    (h : scanNumber cur = .ok (tok, cur')) : tok.type = .NUMBER := by
  unfold scanNumber at h
  split at h
  · injection h with h1
    injection h1 with h1 h2
    subst h1
    rfl
  · exact absurd h (by simp)

/-- The identifier scanner only produces NAME tokens. -/
theorem scanIdent_type (cur : Cursor) : (scanIdent cur).1.type = .NAME := by
  unfold scanIdent
  rcases h : scanIdentChars cur.rest cur.line cur.col with ⟨chars, c2⟩
  simp

/-- The string scanner only produces STRING tokens. -/
theorem scanString_type (cur : Cursor) (tok : Token) (cur' : Cursor)
    (h : scanString cur = .ok (tok, cur')) : tok.type = .STRING := by
  unfold scanString at h
  split at h
  · split at h
    · injection h with h1
      injection h1 with h1 h2
      subst h1
      rfl
    · exact absurd h (by simp)
  · exact absurd h (by simp)

/-- A successful association-list lookup returns a stored value. -/
theorem findOp_mem (s : String) (ty : TokType) : ∀ l : List (String × TokType),
    findOp s l = some ty → ty ∈ l.map Prod.snd := by
  intro l
  induction l with
  | nil => intro h; exact absurd h (by simp [findOp])
  | cons kv rest ih =>
    intro h
    rcases kv with ⟨k, v⟩
    unfold findOp at h
    split at h
    · injection h with h
      simp [h]
    · simp [ih h]

/-- A successful character-keyed lookup returns a stored value. -/
theorem findOpC_mem (c : Char) (ty : TokType) : ∀ l : List (Char × TokType),
    findOpC c l = some ty → ty ∈ l.map Prod.snd := by
  intro l
  induction l with
  | nil => intro h; exact absurd h (by simp [findOpC])
  | cons kv rest ih =>
    intro h
    rcases kv with ⟨k, v⟩
    unfold findOpC at h
    split at h
    · injection h with h
      simp [h]
    · simp [ih h]

/-- The operator-table search only yields kinds stored in the tables. -/
theorem opTokenFind_mem (cur : Cursor) (ty : TokType) (frag : String) (c2 : Cursor)
    (h : opTokenFind cur = some (ty, frag, c2)) :
    ty ∈ multiOps.map Prod.snd ∨ ty ∈ singleOps.map Prod.snd := by
  unfold opTokenFind at h
  split at h
  · rename_i ty3 hfind
    injection h with h
    injection h with h1 h2
    subst h1
    exact Or.inl (findOp_mem _ _ _ hfind)
  · split at h
    · rename_i ty2 hfind
      injection h with h
      injection h with h1 h2
      subst h1
      exact Or.inl (findOp_mem _ _ _ hfind)
    · split at h
      · split at h
        · rename_i c hc ty1 hfind
          injection h with h
          injection h with h1 h2
          subst h1
          exact Or.inr (findOpC_mem _ _ _ hfind)
        · exact absurd h (by simp)
      · exact absurd h (by simp)

/-- Operator tokens are never INDENT or DEDENT. -/
theorem opToken_type (cur : Cursor) (tok : Token) (cur' : Cursor)
    (h : opToken cur = some (tok, cur')) :
    tok.type ≠ .INDENT ∧ tok.type ≠ .DEDENT := by
  have hmulti : ∀ t ∈ multiOps.map Prod.snd,
      t ≠ TokType.INDENT ∧ t ≠ TokType.DEDENT := by decide
  have hsingle : ∀ t ∈ singleOps.map Prod.snd,
      t ≠ TokType.INDENT ∧ t ≠ TokType.DEDENT := by decide
  unfold opToken at h
  split at h
  · rename_i ty frag c2 hfind
    injection h with h
    injection h with h1 h2
    subst h1
    rcases opTokenFind_mem _ _ _ _ hfind with hm | hm
    · exact hmulti ty hm
    · exact hsingle ty hm
  · exact absurd h (by simp)

/-- Comment handling emits no INDENT or DEDENT. -/
theorem handleComment_counts (cur : Cursor) (toks : List Token) (c2 : Cursor)
    (h : handleComment cur = (toks, c2)) :
    countTok .INDENT toks = 0 ∧ countTok .DEDENT toks = 0 := by
  unfold handleComment at h
  split at h
  split at h
  all_goals
    injection h with h1 h2
    subst h1
    simp [countTok]

/-- Dispatch on a non-line-start character never touches the indentation
stack and never emits INDENT or DEDENT. -/
theorem lexDispatch_spec (st : LexState) (c : Char) (st' : LexState) (ems : List Token)
    (h : lexDispatch st c = .ok (st', ems)) :
    st'.indent_stack = st.indent_stack
    ∧ countTok .INDENT ems = 0 ∧ countTok .DEDENT ems = 0 := by
  unfold lexDispatch at h
  split at h
  · injection h with h1
    injection h1 with h1 h2
    subst h1
    subst h2
    exact ⟨rfl, rfl, rfl⟩
  · split at h
    · rcases hc : handleComment st.cur with ⟨toks, cur2⟩
      rw [hc] at h
      injection h with h1
      injection h1 with h1 h2
      subst h1
      subst h2
      exact ⟨rfl, (handleComment_counts _ _ _ hc).1, (handleComment_counts _ _ _ hc).2⟩
    · split at h
      · injection h with h1
        injection h1 with h1 h2
        subst h1
        subst h2
        exact ⟨rfl, rfl, rfl⟩
      · split at h
        · split at h
          · rename_i tok cur2 hscan
            injection h with h1
            injection h1 with h1 h2
            subst h1
            subst h2
            have ht := scanNumber_type _ _ _ hscan
            refine ⟨rfl, ?_, ?_⟩ <;> simp [countTok, ht]
          · exact absurd h (by simp)
        · split at h
          · rcases hid : scanIdent st.cur with ⟨tok, cur2⟩
            rw [hid] at h
            injection h with h1
            injection h1 with h1 h2
            subst h1
            subst h2
            have ht := scanIdent_type st.cur
            rw [hid] at ht
            simp at ht
            refine ⟨rfl, ?_, ?_⟩ <;> simp [countTok, ht]
          · split at h
            · split at h
              · rename_i tok cur2 hscan
                injection h with h1
                injection h1 with h1 h2
                subst h1
                subst h2
                have ht := scanString_type _ _ _ hscan
                refine ⟨rfl, ?_, ?_⟩ <;> simp [countTok, ht]
              · exact absurd h (by simp)
            · split at h
              · rename_i tok cur2 hop
                injection h with h1
                injection h1 with h1 h2
                subst h1
                subst h2
                have ht := opToken_type _ _ _ hop
                refine ⟨rfl, ?_, ?_⟩ <;> simp [countTok, ht.1, ht.2]
              · exact absurd h (by simp)

/-- One main-loop iteration balances emitted INDENT/DEDENT tokens against
the change in stack depth and preserves stack nonemptiness. -/
theorem lexIter_spec (st st₁ : LexState) (ems : List Token) (brk : Bool)
    (h : lexIter st = .ok (st₁, ems, brk)) :
    countTok .INDENT ems + st.indent_stack.length
      = countTok .DEDENT ems + st₁.indent_stack.length
    ∧ (st.indent_stack ≠ [] → st₁.indent_stack ≠ []) := by
  unfold lexIter at h
  split at h
  · split at h
    · exact absurd h (by simp)
    · rename_i st1 ems1 hls
      split at h
      · injection h with h1
        injection h1 with h1 h2
        subst h1
        injection h2 with h2 h3
        subst h2
        exact handleLineStart_spec _ _ _ hls
      · split at h
        · exact absurd h (by simp)
        · rename_i st2 ems2 hdis
          injection h with h1
          injection h1 with h1 h2
          subst h1
          injection h2 with h2 h3
          subst h2
          have h1 := handleLineStart_spec _ _ _ hls
          have h2 := lexDispatch_spec _ _ _ _ hdis
          have hlen : st2.indent_stack.length = st1.indent_stack.length := by
            rw [h2.1]
          constructor
          · rw [countTok_append, countTok_append]
            have e1 := h1.1
            have e2 := h2.2.1
            have e3 := h2.2.2
            omega
          · intro hne
            have := h1.2 hne
            rw [h2.1]
            exact this
  · split at h
    · split at h
      · exact absurd h (by simp)
      · rename_i st2 ems2 hdis
        injection h with h1
        injection h1 with h1 h2
        subst h1
        injection h2 with h2 h3
        subst h2
        have h2 := lexDispatch_spec _ _ _ _ hdis
        have hlen : st2.indent_stack.length = st.indent_stack.length := by
          rw [h2.1]
        constructor
        · have := h2.2.1
          have := h2.2.2
          omega
        · intro hne
          rw [h2.1]
          exact hne
    · injection h with h1
      injection h1 with h1 h2
      subst h1
      injection h2 with h2 h3
      subst h2
      simp [countTok]

/-- The end-of-input epilogue adds no INDENT and exactly one DEDENT per
outstanding indentation level. -/
theorem lexFinish_counts (st : LexState) (acc : List Token) :
    countTok .INDENT (lexFinish st acc) = countTok .INDENT acc
    ∧ countTok .DEDENT (lexFinish st acc)
      = countTok .DEDENT acc + (st.indent_stack.length - 1) := by
  unfold lexFinish
  repeat' split
  all_goals simp [countTok_append, countTok_replicate, countTok]

/-- Main-loop invariant: whenever the loop finishes successfully from a
state whose stack depth exceeds the accumulated DEDENT surplus by one,
the final stream is INDENT/DEDENT balanced. -/
theorem lexLoop_balanced : ∀ (fuel : Nat) (st : LexState) (acc out : List Token),
    lexLoop fuel st acc = .ok out →
    st.indent_stack ≠ [] →
    countTok .INDENT acc + 1 = countTok .DEDENT acc + st.indent_stack.length →
    countTok .INDENT out = countTok .DEDENT out := by
  intro fuel
  induction fuel with
  | zero =>
    intro st acc out h
    exact absurd h (by simp [lexLoop])
  | succ f ih =>
    intro st acc out h hne hinv
    rw [lexLoop] at h
    split at h
    · injection h with h1
      subst h1
      have hf := lexFinish_counts st acc
      have hlen : 1 ≤ st.indent_stack.length := by
        cases hq : st.indent_stack with
        | nil => exact absurd hq hne
        | cons a l => simp
      omega
    · split at h
      · exact absurd h (by simp)
      · rename_i st1 ems brk hit
        have hs := lexIter_spec _ _ _ _ hit
        split at h
        · injection h with h1
          subst h1
          have hf := lexFinish_counts st1 (acc ++ ems)
          have hca := countTok_append .INDENT acc ems
          have hcd := countTok_append .DEDENT acc ems
          have hne1 := hs.2 hne
          have hlen : 1 ≤ st1.indent_stack.length := by
            cases hq : st1.indent_stack with
            | nil => exact absurd hq hne1
            | cons a l => simp
          have e1 := hs.1
          omega
        · refine ih st1 (acc ++ ems) out h (hs.2 hne) ?_
          have hca := countTok_append .INDENT acc ems
          have hcd := countTok_append .DEDENT acc ems
          have e1 := hs.1
          omega

/-- C8: for every input on which the lexer succeeds, the produced token
stream contains an equal number of INDENT and DEDENT tokens: the indent
stack starts at its base level `[0]` and every outstanding level is
flushed as a DEDENT before the end-of-stream sentinel. -/
theorem lexer_indent_dedent_balanced (src : String) (toks : List Token)
    (h : tokenize src = .ok toks) :
    countTok .INDENT toks = countTok .DEDENT toks :=
  lexLoop_balanced _ _ _ _ h (by simp) (by simp [countTok])

/-- Witness for C8 on an input with one indented block. -/
theorem lexer_indent_dedent_balanced_witness :
    tokenize ("if x:\n    y\n") = .ok
      [⟨.NAME, .str ("if"), 1, 1⟩, ⟨.NAME, .str ("x"), 1, 4⟩, ⟨.COLON, .str (":"), 1, 5⟩,
       ⟨.NEWLINE, .str ("\n"), 1, 6⟩, ⟨.INDENT, .none, 2, 1⟩, ⟨.NAME, .str ("y"), 2, 5⟩,
       ⟨.NEWLINE, .str ("\n"), 2, 6⟩, ⟨.DEDENT, .none, 3, 1⟩, ⟨.ENDMARKER, .none, 3, 1⟩]
    ∧ countTok .INDENT
        [⟨.NAME, .str ("if"), 1, 1⟩, ⟨.NAME, .str ("x"), 1, 4⟩, ⟨.COLON, .str (":"), 1, 5⟩,
         ⟨.NEWLINE, .str ("\n"), 1, 6⟩, ⟨.INDENT, .none, 2, 1⟩, ⟨.NAME, .str ("y"), 2, 5⟩,
         ⟨.NEWLINE, .str ("\n"), 2, 6⟩, ⟨.DEDENT, .none, 3, 1⟩, ⟨.ENDMARKER, .none, 3, 1⟩]
      = countTok .DEDENT
        [⟨.NAME, .str ("if"), 1, 1⟩, ⟨.NAME, .str ("x"), 1, 4⟩, ⟨.COLON, .str (":"), 1, 5⟩,
         ⟨.NEWLINE, .str ("\n"), 1, 6⟩, ⟨.INDENT, .none, 2, 1⟩, ⟨.NAME, .str ("y"), 2, 5⟩,
         ⟨.NEWLINE, .str ("\n"), 2, 6⟩, ⟨.DEDENT, .none, 3, 1⟩, ⟨.ENDMARKER, .none, 3, 1⟩] :=
  ⟨rfl, lexer_indent_dedent_balanced ("if x:\n    y\n") _ rfl⟩

end MiniPy
